import Mathlib

/-!
# The AODV line scenario (aodv.cc)

A shallow embedding of the scenario script `aodv.cc`: the class `AodvExample`
with its constructor, `Configure`, `Run`, `CreateNodes`, `CreateDevices`,
`InstallInternetStack` and `InstallApplications`, and `main`.

Conventions of the embedding:

* `uint32_t size` is a natural number; extraction from the command line only
  yields values below `2 ^ 32`;
* a C++ `double` is an IEEE 754 binary64 value. The fields `step` and
  `totalTime` hold finite doubles and are given by their rational value; a
  coordinate is a `Double` (finite or infinite); the product `step*i` and the
  extraction of a double from text round to the nearest double, ties to even
  (`Double.round`). Negative zero is not distinguished from zero, and no
  operation of the script yields a NaN;
* times of events are rationals, in seconds;
* the members `nodes`, `devices`, `interfaces` and the process-wide simulator
  state the script writes to (name registry, event queue, installed
  applications) are threaded explicitly as one `Network` record;
* a container lookup with an index out of range (`nodes.Get`,
  `interfaces.GetAddress`) is an error result;
* a command-line value that cannot be extracted into its variable ends the
  process inside `Parse`: `Configure` then has no result;
* the library event loop (`Simulator::Run`) is not unfolded: `Run` returns the
  state in which the event loop is entered.
-/

namespace Aodv

/-! ## Data model -/

/-- A value of the C++ type `double` as it occurs in the script: a finite value,
given as a rational, or an infinity with its sign. -/
inductive Double where
  | finite (value : ℚ)
  | inf (negative : Bool)
  deriving DecidableEq

instance (n : Nat) : OfNat Double n := ⟨.finite n⟩

/-- Rounding of a rational to the nearest integer, ties to the even one. -/
def roundHalfEven (x : ℚ) : ℤ :=
  let f := ⌊x⌋
  if x - f < 1 / 2 then f
  else if 1 / 2 < x - f then f + 1
  else if f % 2 = 0 then f else f + 1

/-- The double nearest to the rational `q` (IEEE 754 binary64, round to nearest,
ties to even): 53 significant bits, spacing `2 ^ (e - 52)` in the binade
`2 ^ e <= |q| < 2 ^ (e + 1)`, the fixed spacing `2 ^ (-1074)` below
`2 ^ (-1022)`, and an infinity once the rounded magnitude reaches
`2 ^ 1024`. -/
def Double.round (q : ℚ) : Double :=
  if q = 0 then .finite 0
  else
    let e := max (Int.log 2 |q|) (-1022)
    let u : ℚ := 2 ^ (e - 52)
    let r : ℚ := roundHalfEven (q / u) * u
    if 2 ^ 1024 ≤ |r| then .inf (decide (q < 0)) else .finite r

/-- The ns-3 `Vector`, a point in space. -/
structure Vector where
  x : Double
  y : Double
  z : Double
  deriving DecidableEq

/-- The three coordinates of a point when all of them are finite. -/
def Vector.finite? (a : Vector) : Option (ℚ × ℚ × ℚ) :=
  match a.x, a.y, a.z with
  | .finite x, .finite y, .finite z => some (x, y, z)
  | _, _, _ => none

/-- Squared Euclidean distance between two points with finite coordinates (`none`
when a coordinate is infinite). -/
def distSq (a b : Vector) : Option ℚ :=
  match a.finite?, b.finite? with
  | some p, some q => some ((p.1 - q.1) ^ 2 + (p.2.1 - q.2.1) ^ 2 + (p.2.2 - q.2.2) ^ 2)
  | _, _ => none

/-- The Euclidean distance between `a` and `b` is exactly `d`. -/
def isDistance (a b : Vector) (d : ℚ) : Prop :=
  0 ≤ d ∧ distSq a b = some (d ^ 2)

instance (a b : Vector) (d : ℚ) : Decidable (isDistance a b d) := by
  unfold isDistance
  infer_instance

/-- Failure of a container lookup: the index asked for and the container length. -/
inductive Error where
  | nodeIndex (i n : Nat)
  | interfaceIndex (i n : Nat)
  deriving DecidableEq

/-- A node: its id in the node list and the position held by its mobility model
(`none` until a mobility model is installed). -/
structure Node where
  id : Nat
  position : Option Vector
  deriving DecidableEq

/-- A wifi device, identified by the node it is installed on. -/
structure NetDevice where
  node : Nat
  deriving DecidableEq

/-- An IPv4 interface: the node it belongs to and its 32-bit address. -/
structure Ipv4Interface where
  node : Nat
  address : Nat
  deriving DecidableEq

/-- The two kinds of application the script installs, with their attributes. -/
inductive AppKind where
  | udpEchoServer (port : Nat)
  | udpEchoClient (remoteAddress remotePort maxPackets : Nat) (interval : ℚ) (packetSize : Nat)
  deriving DecidableEq

/-- An installed application: host node, kind, start time and stop time (seconds). -/
structure Application where
  node : Nat
  kind : AppKind
  startTime : ℚ
  stopTime : ℚ
  deriving DecidableEq

/-- What a scheduled event does when it fires. -/
inductive Action where
  | printRoutingTable (node : Nat) (stream : String)
  | setPosition (node : Nat) (position : Vector)
  | startApplication (app : Nat)
  | stopApplication (app : Nat)
  | stop
  deriving DecidableEq

/-- A scheduled event: fire time in seconds and action. -/
structure Event where
  time : ℚ
  action : Action
  deriving DecidableEq

/-- The script parameters held by `AodvExample`. The doubles `step` and `totalTime`
are finite and given by their value. -/
structure AodvExample where
  size : Nat
  step : ℚ
  totalTime : ℚ
  pcap : Bool
  printRoutes : Bool
  deriving DecidableEq

/-- The network members of `AodvExample` (`nodes`, `devices`, `interfaces`) together
with the simulator state the script writes to. `events` is the event queue in
insertion order. -/
structure Network where
  nodes : List Node
  names : List (String × Nat)
  devices : List NetDevice
  pcapTrace : Option String
  aodvNodes : List Nat
  interfaces : List Ipv4Interface
  routingStream : Option String
  applications : List Application
  events : List Event
  deriving DecidableEq

/-- Values written on the command line for the five bound variables; `none` leaves
the variable untouched. `size` is the decimal integer written, `time` and
`step` the decimal value written. -/
structure CommandLine where
  pcap : Option Bool
  printRoutes : Option Bool
  size : Option Nat
  time : Option ℚ
  step : Option ℚ
  deriving DecidableEq

/-- Result of `main`: the process was ended inside `Parse`, it was aborted by
`NS_FATAL_ERROR`, or `Run` was called and left the given result. -/
inductive MainResult where
  | exited
  | fatalError (msg : String)
  | ran (result : Except Error Network)

/-! ## Library helpers used by the script -/

/-- `NodeContainer::Create (n)` on an empty node list: nodes with ids `0 .. n-1`. -/
def NodeContainer.Create (n : Nat) : List Node :=
  (List.range n).map fun (i : Nat) => ⟨i, none⟩

/-- `NodeContainer::Get (i)`. -/
def NodeContainer.Get (c : List Node) (i : Nat) : Except Error Node :=
  match c.get? i with
  | some n => .ok n
  | none => .error (.nodeIndex i c.length)

/-- `Ipv4InterfaceContainer::GetAddress (i)`. -/
def Ipv4InterfaceContainer.GetAddress (c : List Ipv4Interface) (i : Nat) : Except Error Nat :=
  match c.get? i with
  | some a => .ok a.address
  | none => .error (.interfaceIndex i c.length)

/-- `MobilityHelper::Install`: node number k receives the k-th allocated position
(the script allocates exactly one position per node). -/
def MobilityHelper.Install (alloc : List Vector) (nodes : List Node) : List Node :=
  List.zipWith (fun n p => { n with position := some p }) nodes alloc

/-- `Simulator::Schedule` at set-up time (now = 0): append to the queue. -/
def Simulator.Schedule (t : ℚ) (a : Action) (net : Network) : Network :=
  { net with events := net.events ++ [⟨t, a⟩] }

/-- `PrintRoutingTableAt`: one dump of one node at time `t`. -/
def PrintRoutingTableAt (t : ℚ) (node : Node) (stream : String) (net : Network) : Network :=
  Simulator.Schedule t (.printRoutingTable node.id stream) net

/-- Modelled from the spec: the library helper `PrintRoutingTableAllAt` is not part of
the source file; following section 4.5 (a snapshot is every node's table) and
section 6 (one record per node), it schedules one dump per node of the node
list at time `t`. -/
def PrintRoutingTableAllAt (t : ℚ) (stream : String) (net : Network) : Network :=
  net.nodes.foldl (fun acc n => PrintRoutingTableAt t n stream acc) net

/-- Extraction of a `uint32_t` from the decimal integer `n`: it fails when `n` does
not fit in 32 bits. -/
def parseUint32 (n : Nat) : Option Nat :=
  if n < 2 ^ 32 then some n else none

/-- Extraction of a `double` from the decimal value `q`: the nearest double; it
fails when that is out of the range of `double`. -/
def parseDouble (q : ℚ) : Option ℚ :=
  match Double.round q with
  | .finite v => some v
  | .inf _ => none

/-- Handling of one bound variable by `CommandLine::Parse`: without an argument
the variable keeps its value; with one, the value is extracted (`none` when
the extraction fails). -/
def CommandLine.extract {α β : Type} (given : Option α) (parse : α → Option β)
    (current : β) : Option β :=
  match given with
  | none => some current
  | some v => parse v

/-- The address 10.0.0.0 as a 32-bit number. -/
def baseAddress : Nat := 10 * 2 ^ 24

/-- `Ipv4AddressHelper::Assign` with base 10.0.0.0: device number k gets host number k+1. -/
def Ipv4AddressHelper.Assign (devices : List NetDevice) : List Ipv4Interface :=
  (List.range devices.length).zipWith (fun (k : Nat) d => ⟨d.node, baseAddress + (k + 1)⟩) devices

/-! ## The script -/

/-- The constructor `AodvExample::AodvExample`. -/
def AodvExample.new : AodvExample :=
  { size := 5, step := 70, totalTime := 200, pcap := true, printRoutes := true }

/-- The state of the network members and of the simulator before `Run`. -/
def Network.empty : Network :=
  { nodes := [], names := [], devices := [], pcapTrace := none, aodvNodes := [],
    interfaces := [], routingStream := none, applications := [], events := [] }

/-- `AodvExample::Configure`: bind the five variables to the command line, parse,
return true. `none` stands for the process being ended inside `Parse`, which
happens when a value cannot be extracted into its variable; setting the
random seed has no effect on the state modelled here. -/
def Configure (cmd : CommandLine) (self : AodvExample) : Option (Bool × AodvExample) :=
  match CommandLine.extract cmd.size parseUint32 self.size,
      CommandLine.extract cmd.time parseDouble self.totalTime,
      CommandLine.extract cmd.step parseDouble self.step with
  | some size, some totalTime, some step =>
      some (true,
        { size := size, step := step, totalTime := totalTime,
          pcap := cmd.pcap.getD self.pcap,
          printRoutes := cmd.printRoutes.getD self.printRoutes })
  | _, _, _ => none

/-- The loop filling `initialAlloc`: one `Add (Vector (step*i, 0, 0))` per `i < size`,
the product being taken in double precision. -/
def initialAlloc (self : AodvExample) : List Vector :=
  (List.range self.size).foldl
    (fun alloc (i : Nat) => alloc ++ [⟨Double.round (self.step * i), 0, 0⟩]) []

/-- `AodvExample::CreateNodes`: create `size` nodes, register the name `node-i` for
node `i` (that loop only looks up indices below `size`), allocate the
positions and install the mobility models. -/
def CreateNodes (self : AodvExample) : Network :=
  let nodes := NodeContainer.Create self.size
  let names := (List.range self.size).foldl
    (fun reg (i : Nat) => reg ++ [("node-" ++ toString i, i)]) []
  { Network.empty with
      nodes := MobilityHelper.Install (initialAlloc self) nodes
      names := names }

/-- `AodvExample::CreateDevices`: one ad-hoc wifi device per node; pcap tracing if asked. -/
def CreateDevices (self : AodvExample) (net : Network) : Network :=
  let net := { net with devices := net.nodes.map fun n => NetDevice.mk n.id }
  if self.pcap then { net with pcapTrace := some "aodv" } else net

/-- `AodvExample::InstallInternetStack`. -/
def InstallInternetStack (self : AodvExample) (net : Network) : Except Error Network := do
  let net := { net with aodvNodes := net.nodes.map Node.id }
  let net := { net with interfaces := Ipv4AddressHelper.Assign net.devices }
  if self.printRoutes then
    let routingStream := "aodv.routes"
    let net := { net with routingStream := some routingStream }
    let node0 ← NodeContainer.Get net.nodes 0
    let net := PrintRoutingTableAt 10 node0 routingStream net
    let net := PrintRoutingTableAllAt 10 routingStream net
    let net := PrintRoutingTableAllAt 50 routingStream net
    let net := PrintRoutingTableAllAt 100 routingStream net
    let net := PrintRoutingTableAllAt 150 routingStream net
    let net := PrintRoutingTableAllAt 200 routingStream net
    pure net
  else
    pure net

/-- `AodvExample::InstallApplications`. -/
def InstallApplications (net : Network) : Except Error Network := do
  let serverNode ← NodeContainer.Get net.nodes 4
  let serverApps1 : Application := ⟨serverNode.id, .udpEchoServer 9, 0, 200⟩
  let net := { net with applications := net.applications ++ [serverApps1] }
  let remote ← Ipv4InterfaceContainer.GetAddress net.interfaces 4
  let clientNode ← NodeContainer.Get net.nodes 0
  let clientApps1 : Application := ⟨clientNode.id, .udpEchoClient remote 9 21 10 1024, 10, 200⟩
  let net := { net with applications := net.applications ++ [clientApps1] }
  let node ← NodeContainer.Get net.nodes 0
  let net := Simulator.Schedule 25 (.setPosition node.id ⟨110, 0, 0⟩) net
  let net := Simulator.Schedule 75 (.setPosition node.id ⟨180, 0, 0⟩) net
  let net := Simulator.Schedule 125 (.setPosition node.id ⟨250, 0, 0⟩) net
  pure net

/-- `Simulator::Stop (Seconds (t))` at set-up time: the stop event fires at `t`. -/
def Simulator.Stop (t : ℚ) (net : Network) : Network :=
  Simulator.Schedule t .stop net

/-- `AodvExample::Run` up to the call of `Simulator::Run`. -/
def Run (self : AodvExample) : Except Error Network := do
  let net := CreateNodes self
  let net := CreateDevices self net
  let net ← InstallInternetStack self net
  let net ← InstallApplications net
  pure (Simulator.Stop self.totalTime net)

/-- The function `main`. -/
def main (cmd : CommandLine) : MainResult :=
  match Configure cmd AodvExample.new with
  | none => .exited
  | some (ok, test) =>
      if !ok then .fatalError "Configuration failed. Aborted."
      else .ran (Run test)

/-! ## Observations on the state left by the script -/

/-- Number of routing-table dumps of `node` scheduled at time `t`. -/
def dumpCount (net : Network) (node : Nat) (t : ℚ) : Nat :=
  (net.events.filter fun e =>
    match e.action with
    | .printRoutingTable n _ => decide (n = node) && decide (e.time = t)
    | _ => false).length

/-- The fire times of the scheduled routing-table dumps, in insertion order. -/
def dumpTimes (net : Network) : List ℚ :=
  net.events.filterMap fun e =>
    match e.action with
    | .printRoutingTable _ _ => some e.time
    | _ => none

/-- The waypoints of a node: time and position of each scheduled `SetPosition`
on its mobility model, in insertion order. -/
def waypoints (net : Network) (node : Nat) : List (ℚ × Vector) :=
  net.events.filterMap fun e =>
    match e.action with
    | .setPosition n p => if n = node then some (e.time, p) else none
    | _ => none

/-- All scheduled waypoint events, each with the node it moves. -/
def waypointEvents (net : Network) : List (ℚ × Nat × Vector) :=
  net.events.filterMap fun e =>
    match e.action with
    | .setPosition n p => some (e.time, n, p)
    | _ => none

/-- Modelled from the spec: the event loop is library code; following section 4.2 a
position is held constant at the last waypoint reached, and following section
4.1 events with equal fire time take effect in insertion order. The result is
the position at time `t` of a node starting at `init` with waypoints `wps`. -/
def heldPosition (init : Vector) (wps : List (ℚ × Vector)) (t : ℚ) : Vector :=
  (wps.foldl
    (fun (best : Option ℚ × Vector) w =>
      if decide (w.1 ≤ t) && (match best.1 with
          | some tb => decide (tb ≤ w.1)
          | none => true)
      then (some w.1, w.2) else best)
    (none, init)).2

/-- Position of the node with id `node` at time `t` (node ids are list indices). -/
def positionAt (net : Network) (node : Nat) (t : ℚ) : Option Vector :=
  match net.nodes.get? node with
  | some n => n.position.map fun p => heldPosition p (waypoints net node) t
  | none => none

/-- At time `t` the nodes `i` and `j` both have a position and are exactly `d` apart. -/
def distanceAt (net : Network) (i j : Nat) (t : ℚ) (d : ℚ) : Prop :=
  match positionAt net i t, positionAt net j t with
  | some a, some b => isDistance a b d
  | _, _ => False

instance (net : Network) (i j : Nat) (t : ℚ) (d : ℚ) : Decidable (distanceAt net i j t d) := by
  unfold distanceAt
  split <;> infer_instance

/-- Modelled from the spec: the application start and stop events are created by
library code; following section 4.4 an application has a start and a stop
time, registered as one event each (no stop event for a stop time of zero).
`k` is the index of the application. -/
def Application.events (k : Nat) (a : Application) : List Event :=
  ⟨a.startTime, .startApplication k⟩ ::
    (if a.stopTime = 0 then [] else [⟨a.stopTime, .stopApplication k⟩])

/-- Every event registered before the event loop starts: the queue left by `Run`
and the start and stop events of the installed applications. -/
def registeredEvents (net : Network) : List Event :=
  net.events ++ (net.applications.enum.map fun ka => ka.2.events ka.1).flatten

/-- Modelled from the spec: the echo client is library code; following section 4.4 and
section 8 it sends at its start time and then once per interval, at most
`maxPackets` times, and only strictly before its stop time. -/
def sendTicks (a : Application) : List ℚ :=
  match a.kind with
  | .udpEchoClient _ _ maxPackets interval _ =>
      ((List.range maxPackets).map fun (k : Nat) => a.startTime + interval * k).filter
        fun t => decide (t < a.stopTime)
  | .udpEchoServer _ => []

/-- Modelled from the spec: the radio model is library code; following the glossary
(radio range) two distinct nodes are directly linked at time `t` iff their
distance is below the range `r`. -/
def linked (net : Network) (r : ℚ) (t : ℚ) (i j : Nat) : Bool :=
  match positionAt net i t, positionAt net j t with
  | some a, some b =>
      match distSq a b with
      | some s => decide (i ≠ j) && decide (0 < r) && decide (s < r ^ 2)
      | none => false
  | _, _ => false

/-- A route from `src` to `dst` at time `t`: a list of node ids starting at `src`,
ending at `dst`, with every two consecutive nodes linked. It has
`p.length - 1` hops. -/
def isRoute (net : Network) (r : ℚ) (t : ℚ) (src dst : Nat) (p : List Nat) : Prop :=
  p.head? = some src ∧ p.getLast? = some dst ∧
    List.Chain' (fun i j => linked net r t i j = true) p

instance (net : Network) (r : ℚ) (t : ℚ) (src dst : Nat) (p : List Nat) :
    Decidable (isRoute net r t src dst p) := by
  unfold isRoute
  infer_instance

/-! ## Auxiliary lemmas: double precision -/

@[simp]
theorem Double.ofNat_eq_finite (n : Nat) : (OfNat.ofNat n : Double) = Double.finite (n : ℚ) :=
  rfl

theorem log2_eq (a : ℚ) (e : ℤ) (ha : 0 < a) (h1 : (2 : ℚ) ^ e ≤ a)
    (h2 : a < (2 : ℚ) ^ (e + 1)) : Int.log 2 a = e := by
  have hb : 1 < (2 : ℕ) := by norm_num
  have l1 : e ≤ Int.log 2 a := (Int.zpow_le_iff_le_log hb ha).1 (by exact_mod_cast h1)
  have l2 : Int.log 2 a < e + 1 := (Int.lt_zpow_iff_log_lt hb ha).1 (by exact_mod_cast h2)
  omega

theorem roundHalfEven_eq (x : ℚ) (f : ℤ) (h1 : (f : ℚ) ≤ x) (h2 : x < f + 1) :
    roundHalfEven x =
      if x - f < 1 / 2 then f
      else if 1 / 2 < x - f then f + 1
      else if f % 2 = 0 then f else f + 1 := by
  have hf : ⌊x⌋ = f := Int.floor_eq_iff.2 ⟨h1, h2⟩
  simp only [roundHalfEven, hf]

theorem roundHalfEven_intCast (n : ℤ) : roundHalfEven (n : ℚ) = n := by
  rw [roundHalfEven_eq (n : ℚ) n le_rfl (by linarith)]
  norm_num

/-- Evaluation of `Double.round` at a positive rational from its binade `e`, the
floor `f` of the scaled value and the rounded significand `n`. -/
theorem Double.round_eq_finite (q : ℚ) (e f n : ℤ) (hq : 0 < q)
    (he1 : (2 : ℚ) ^ e ≤ q) (he2 : q < (2 : ℚ) ^ (e + 1)) (hmin : -1022 ≤ e)
    (hf1 : (f : ℚ) ≤ q / 2 ^ (e - 52)) (hf2 : q / 2 ^ (e - 52) < f + 1)
    (hn : (if q / 2 ^ (e - 52) - f < 1 / 2 then f
      else if 1 / 2 < q / 2 ^ (e - 52) - f then f + 1
      else if f % 2 = 0 then f else f + 1) = n)
    (hlo : -(2 : ℚ) ^ 1024 < n * 2 ^ (e - 52)) (hhi : (n : ℚ) * 2 ^ (e - 52) < 2 ^ 1024) :
    Double.round q = .finite (n * 2 ^ (e - 52)) := by
  have habs : |q| = q := abs_of_pos hq
  have hlog : Int.log 2 |q| = e := by
    rw [habs]
    exact log2_eq q e hq he1 he2
  have hmax : max e (-1022) = e := max_eq_left hmin
  have hr : roundHalfEven (q / 2 ^ (e - 52)) = n := by
    rw [roundHalfEven_eq _ f hf1 hf2]
    exact hn
  have hov : ¬ ((2 : ℚ) ^ 1024 ≤ |(n : ℚ) * 2 ^ (e - 52)|) := by
    rw [not_le, abs_lt]
    exact ⟨hlo, hhi⟩
  simp only [Double.round, hq.ne', if_false, hlog, hmax, hr, hov]

/-- Integers of magnitude below `2 ^ 53` are doubles: rounding leaves them unchanged. -/
theorem Double.round_intCast (m : ℤ) (h : |m| < 2 ^ 53) :
    Double.round (m : ℚ) = .finite m := by
  by_cases hm : m = 0
  · subst hm
    simp [Double.round]
  have hq : (m : ℚ) ≠ 0 := by exact_mod_cast hm
  have hpos : (0 : ℚ) < |(m : ℚ)| := abs_pos.2 hq
  have hb : 1 < (2 : ℕ) := by norm_num
  have h1 : (1 : ℚ) ≤ |(m : ℚ)| := by
    have : (1 : ℤ) ≤ |m| := Int.one_le_abs hm
    exact_mod_cast this
  have hlt : |(m : ℚ)| < (2 : ℚ) ^ (53 : ℤ) := by
    have : ((|m| : ℤ) : ℚ) < ((2 ^ 53 : ℤ) : ℚ) := Int.cast_lt.2 h
    rw [Int.cast_abs] at this
    calc |(m : ℚ)| < ((2 ^ 53 : ℤ) : ℚ) := this
      _ = (2 : ℚ) ^ (53 : ℤ) := by norm_num
  have l0 : (0 : ℤ) ≤ Int.log 2 |(m : ℚ)| :=
    (Int.zpow_le_iff_le_log hb hpos).1 (by simpa using h1)
  have l1 : Int.log 2 |(m : ℚ)| < 53 :=
    (Int.lt_zpow_iff_log_lt hb hpos).1 (by exact_mod_cast hlt)
  obtain ⟨k, hk⟩ : ∃ k : ℕ, (52 : ℤ) - Int.log 2 |(m : ℚ)| = k :=
    ⟨(52 - Int.log 2 |(m : ℚ)|).toNat, (Int.toNat_of_nonneg (by omega)).symm⟩
  have hmax : max (Int.log 2 |(m : ℚ)|) (-1022) = Int.log 2 |(m : ℚ)| :=
    max_eq_left (by omega)
  have hu : (2 : ℚ) ^ (Int.log 2 |(m : ℚ)| - 52) = ((2 : ℚ) ^ k)⁻¹ := by
    rw [← zpow_natCast, ← zpow_neg, ← hk]
    congr 1
    omega
  have hdiv : (m : ℚ) / ((2 : ℚ) ^ k)⁻¹ = ((m * 2 ^ k : ℤ) : ℚ) := by
    push_cast
    field_simp
  have hback : ((m * 2 ^ k : ℤ) : ℚ) * ((2 : ℚ) ^ k)⁻¹ = m := by
    push_cast
    field_simp
  have hov : ¬ ((2 : ℚ) ^ 1024 ≤ |(m : ℚ)|) := by
    rw [not_le]
    calc |(m : ℚ)| < (2 : ℚ) ^ (53 : ℤ) := hlt
      _ ≤ 2 ^ 1024 := by norm_num
  simp only [Double.round, hq, if_false, hmax, hu, hdiv, roundHalfEven_intCast, hback, hov]

/-- The product of an integer-valued `step` with a node index is exact as long as
its magnitude stays below `2 ^ 53`. -/
theorem Double.round_int_mul (step : ℚ) (m : ℤ) (i : Nat) (hm : step = m)
    (h : |m| * i < 2 ^ 53) : Double.round (step * i) = .finite (step * i) := by
  have hcast : step * (i : ℚ) = ((m * (i : ℤ) : ℤ) : ℚ) := by
    rw [hm]
    push_cast
    ring
  rw [hcast]
  apply Double.round_intCast
  rw [abs_mul, Nat.abs_cast]
  exact h

theorem parseDouble_intCast (m : ℤ) (h : |m| < 2 ^ 53) : parseDouble (m : ℚ) = some (m : ℚ) := by
  unfold parseDouble
  rw [Double.round_intCast m h]

theorem round_one_tenth : Double.round (1 / 10) = .finite (3602879701896397 / 2 ^ 55) := by
  have h := Double.round_eq_finite (1 / 10) (-4) 7205759403792793 7205759403792794
    (by norm_num) (by norm_num) (by norm_num) (by norm_num) (by norm_num) (by norm_num)
    (by norm_num) (by norm_num) (by norm_num)
  rw [h]
  congr 1
  norm_num

theorem round_one_tenth_mul_two :
    Double.round (3602879701896397 / 2 ^ 55 * (2 : Nat)) =
      .finite (3602879701896397 / 2 ^ 54) := by
  have h := Double.round_eq_finite (3602879701896397 / 2 ^ 55 * (2 : Nat)) (-3)
    7205759403792794 7205759403792794
    (by norm_num) (by norm_num) (by norm_num) (by norm_num) (by norm_num) (by norm_num)
    (by norm_num) (by norm_num) (by norm_num)
  rw [h]
  congr 1
  norm_num

theorem round_one_tenth_mul_three :
    Double.round (3602879701896397 / 2 ^ 55 * (3 : Nat)) =
      .finite (5404319552844596 / 2 ^ 54) := by
  have h := Double.round_eq_finite (3602879701896397 / 2 ^ 55 * (3 : Nat)) (-2)
    5404319552844595 5404319552844596
    (by norm_num) (by norm_num) (by norm_num) (by norm_num) (by norm_num) (by norm_num)
    (by norm_num) (by norm_num) (by norm_num)
  rw [h]
  congr 1
  norm_num

/-! ## Auxiliary lemmas: the script -/

theorem foldl_snoc_eq_map {α β : Type} (f : α → β) (l : List α) (init : List β) :
    l.foldl (fun acc i => acc ++ [f i]) init = init ++ l.map f := by
  induction l generalizing init with
  | nil => simp
  | cons a l ih => simp [ih]

theorem zipWith_map_map {α β γ δ : Type} (f : β → γ → δ) (g : α → β) (h : α → γ)
    (l : List α) :
    List.zipWith f (l.map g) (l.map h) = l.map fun a => f (g a) (h a) := by
  induction l with
  | nil => simp
  | cons a l ih => simp [ih]

theorem initialAlloc_eq (self : AodvExample) :
    initialAlloc self = (List.range self.size).map fun (i : Nat) => (⟨Double.round (self.step * i), 0, 0⟩ : Vector) := by
  unfold initialAlloc
  rw [foldl_snoc_eq_map (fun i : Nat => (⟨Double.round (self.step * i), 0, 0⟩ : Vector))]
  simp

theorem CreateNodes_nodes (self : AodvExample) :
    (CreateNodes self).nodes =
      (List.range self.size).map fun (i : Nat) => (⟨i, some ⟨Double.round (self.step * i), 0, 0⟩⟩ : Node) := by
  simp only [CreateNodes, MobilityHelper.Install, NodeContainer.Create, initialAlloc_eq]
  rw [zipWith_map_map]

theorem CreateNodes_getElem? (self : AodvExample) (i : Nat) (h : i < self.size) :
    (CreateNodes self).nodes[i]? = some ⟨i, some ⟨Double.round (self.step * i), 0, 0⟩⟩ := by
  rw [CreateNodes_nodes]
  simp [List.getElem?_range, h]

theorem CreateNodes_getElem?_none (self : AodvExample) (i : Nat) (h : self.size ≤ i) :
    (CreateNodes self).nodes[i]? = none := by
  rw [CreateNodes_nodes]
  simp [h]

theorem CreateNodes_length (self : AodvExample) :
    (CreateNodes self).nodes.length = self.size := by
  simp [CreateNodes_nodes]

theorem Get_CreateNodes (self : AodvExample) (i : Nat) (h : i < self.size) :
    NodeContainer.Get (CreateNodes self).nodes i = .ok ⟨i, some ⟨Double.round (self.step * i), 0, 0⟩⟩ := by
  unfold NodeContainer.Get
  rw [List.get?_eq_getElem?, CreateNodes_getElem? self i h]

theorem Get_CreateNodes_error (self : AodvExample) (i : Nat) (h : self.size ≤ i) :
    NodeContainer.Get (CreateNodes self).nodes i = .error (.nodeIndex i self.size) := by
  unfold NodeContainer.Get
  rw [List.get?_eq_getElem?, CreateNodes_getElem?_none self i h, CreateNodes_length]

theorem foldl_PrintRoutingTableAt (t : ℚ) (stream : String) (l : List Node) (acc : Network) :
    l.foldl (fun acc n => PrintRoutingTableAt t n stream acc) acc =
      { acc with events := acc.events ++ l.map fun n => ⟨t, .printRoutingTable n.id stream⟩ } := by
  induction l generalizing acc with
  | nil => simp
  | cons a l ih =>
    simp only [List.foldl_cons, List.map_cons]
    rw [ih]
    simp [PrintRoutingTableAt, Simulator.Schedule]

theorem PrintRoutingTableAllAt_eq (t : ℚ) (stream : String) (net : Network) :
    PrintRoutingTableAllAt t stream net =
      { net with events := net.events ++
          net.nodes.map fun n => ⟨t, .printRoutingTable n.id stream⟩ } := by
  unfold PrintRoutingTableAllAt
  exact foldl_PrintRoutingTableAt t stream net.nodes net

theorem CreateDevices_nodes (self : AodvExample) (net : Network) :
    (CreateDevices self net).nodes = net.nodes := by
  unfold CreateDevices
  split <;> rfl

theorem CreateDevices_devices (self : AodvExample) (net : Network) :
    (CreateDevices self net).devices = net.nodes.map fun n => NetDevice.mk n.id := by
  unfold CreateDevices
  split <;> rfl

theorem CreateDevices_applications (self : AodvExample) (net : Network) :
    (CreateDevices self net).applications = net.applications := by
  unfold CreateDevices
  split <;> rfl

theorem CreateDevices_events (self : AodvExample) (net : Network) :
    (CreateDevices self net).events = net.events := by
  unfold CreateDevices
  split <;> rfl

theorem Assign_range (n : Nat) :
    Ipv4AddressHelper.Assign ((List.range n).map fun (i : Nat) => NetDevice.mk i) =
      (List.range n).map fun (i : Nat) => (⟨i, baseAddress + (i + 1)⟩ : Ipv4Interface) := by
  unfold Ipv4AddressHelper.Assign
  rw [List.length_map, List.length_range]
  have h := zipWith_map_map (fun (k : Nat) (d : NetDevice) => (⟨d.node, baseAddress + (k + 1)⟩ : Ipv4Interface))
    (fun i : Nat => i) (fun i : Nat => NetDevice.mk i) (List.range n)
  simpa using h

theorem InstallInternetStack_spec (self : AodvExample)
    (h : self.printRoutes = true → 0 < self.size) :
    ∃ net, InstallInternetStack self (CreateDevices self (CreateNodes self)) = .ok net ∧
      net.nodes = (CreateNodes self).nodes ∧
      net.interfaces = (List.range self.size).map (fun (i : Nat) => ⟨i, baseAddress + (i + 1)⟩) ∧
      net.applications = [] ∧
      net.events = if self.printRoutes then
        ⟨10, .printRoutingTable 0 "aodv.routes"⟩ ::
          ([10, 50, 100, 150, 200].map fun (t : ℚ) =>
            (List.range self.size).map fun (i : Nat) =>
              (⟨t, .printRoutingTable i "aodv.routes"⟩ : Event)).flatten
        else [] := by
  have hdev : Ipv4AddressHelper.Assign (CreateDevices self (CreateNodes self)).devices =
      (List.range self.size).map (fun (i : Nat) => (⟨i, baseAddress + (i + 1)⟩ : Ipv4Interface)) := by
    rw [CreateDevices_devices, CreateNodes_nodes, List.map_map]
    exact Assign_range self.size
  have hev : (CreateDevices self (CreateNodes self)).events = [] := by
    rw [CreateDevices_events]; rfl
  have happ : (CreateDevices self (CreateNodes self)).applications = [] := by
    rw [CreateDevices_applications]; rfl
  unfold InstallInternetStack
  by_cases hp : self.printRoutes = true
  · have h0 := Get_CreateNodes self 0 (h hp)
    simp only [hp, if_true, CreateDevices_nodes, h0, bind, Except.bind, pure, Except.pure,
      PrintRoutingTableAllAt_eq, PrintRoutingTableAt, Simulator.Schedule, hdev, hev, happ]
    refine ⟨_, rfl, ?_, ?_, ?_, ?_⟩
    · simp [CreateDevices_nodes]
    · rfl
    · simp [happ]
    · simp [CreateDevices_nodes, CreateNodes_nodes, List.map_map, hev]
      rfl
  · simp only [hp, bind, Except.bind, pure, Except.pure, Bool.false_eq_true, if_false]
    exact ⟨_, rfl, CreateDevices_nodes _ _, hdev, happ, hev⟩

theorem InstallApplications_spec (net : Network) (n0 n4 : Node) (a4 : Ipv4Interface)
    (h0 : net.nodes[0]? = some n0) (h4 : net.nodes[4]? = some n4)
    (ha : net.interfaces[4]? = some a4) :
    InstallApplications net = .ok
      { net with
        applications := net.applications ++
          [⟨n4.id, .udpEchoServer 9, 0, 200⟩,
           ⟨n0.id, .udpEchoClient a4.address 9 21 10 1024, 10, 200⟩]
        events := net.events ++
          [⟨25, .setPosition n0.id ⟨110, 0, 0⟩⟩, ⟨75, .setPosition n0.id ⟨180, 0, 0⟩⟩,
           ⟨125, .setPosition n0.id ⟨250, 0, 0⟩⟩] } := by
  simp [InstallApplications, NodeContainer.Get, Ipv4InterfaceContainer.GetAddress, h0, h4, ha,
    bind, Except.bind, pure, Except.pure, Simulator.Schedule]

theorem Run_spec (self : AodvExample) (h : 5 ≤ self.size) :
    ∃ net, Run self = .ok net ∧
      net.nodes = (List.range self.size).map
        (fun (i : Nat) => (⟨i, some ⟨Double.round (self.step * i), 0, 0⟩⟩ : Node)) ∧
      net.interfaces = (List.range self.size).map (fun (i : Nat) => ⟨i, baseAddress + (i + 1)⟩) ∧
      net.applications =
        [⟨4, .udpEchoServer 9, 0, 200⟩,
         ⟨0, .udpEchoClient (baseAddress + 5) 9 21 10 1024, 10, 200⟩] ∧
      net.events = (if self.printRoutes then
        ⟨10, .printRoutingTable 0 "aodv.routes"⟩ ::
          ([10, 50, 100, 150, 200].map fun (t : ℚ) =>
            (List.range self.size).map fun (i : Nat) =>
              (⟨t, .printRoutingTable i "aodv.routes"⟩ : Event)).flatten
        else []) ++
        [⟨25, .setPosition 0 ⟨110, 0, 0⟩⟩, ⟨75, .setPosition 0 ⟨180, 0, 0⟩⟩,
         ⟨125, .setPosition 0 ⟨250, 0, 0⟩⟩, ⟨self.totalTime, .stop⟩] := by
  obtain ⟨net1, h1, hn, hi, ha, he⟩ := InstallInternetStack_spec self (fun _ => by omega)
  have g0 : net1.nodes[0]? = some ⟨0, some ⟨Double.round (self.step * (0 : Nat)), 0, 0⟩⟩ := by
    rw [hn]; exact CreateNodes_getElem? self 0 (by omega)
  have g4 : net1.nodes[4]? = some ⟨4, some ⟨Double.round (self.step * (4 : Nat)), 0, 0⟩⟩ := by
    rw [hn]; exact CreateNodes_getElem? self 4 (by omega)
  have ga : net1.interfaces[4]? = some ⟨4, baseAddress + 5⟩ := by
    rw [hi]
    simp [List.getElem?_range, show 4 < self.size by omega]
  have h2 := InstallApplications_spec net1 _ _ _ g0 g4 ga
  simp only [Run, h1, h2, bind, Except.bind, pure, Except.pure]
  refine ⟨_, rfl, ?_, ?_, ?_, ?_⟩
  · simp [Simulator.Stop, Simulator.Schedule, hn, CreateNodes_nodes]
  · simp [Simulator.Stop, Simulator.Schedule, hi]
  · simp [Simulator.Stop, Simulator.Schedule, ha]
  · simp [Simulator.Stop, Simulator.Schedule, he]

theorem Run_error_of_size_lt (self : AodvExample) (h : self.size < 5) :
    ∃ e, Run self = .error e := by
  by_cases hp : self.printRoutes = true ∧ self.size = 0
  · obtain ⟨hp, h0⟩ := hp
    refine ⟨.nodeIndex 0 self.size, ?_⟩
    have hg := Get_CreateNodes_error self 0 (by omega)
    simp only [Run, InstallInternetStack, hp, if_true, CreateDevices_nodes, hg, bind,
      Except.bind]
  · obtain ⟨net1, h1, hn, -, -, -⟩ := InstallInternetStack_spec self (fun hp' => by
      by_contra hc
      exact hp ⟨hp', by omega⟩)
    refine ⟨.nodeIndex 4 self.size, ?_⟩
    have hg : NodeContainer.Get net1.nodes 4 = .error (.nodeIndex 4 self.size) := by
      rw [hn]
      exact Get_CreateNodes_error self 4 (by omega)
    simp only [Run, h1, InstallApplications, hg, bind, Except.bind]

theorem InstallInternetStack_error (self : AodvExample) (hp : self.printRoutes = true)
    (h0 : self.size = 0) :
    InstallInternetStack self (CreateDevices self (CreateNodes self)) =
      .error (.nodeIndex 0 0) := by
  have hg := Get_CreateNodes_error self 0 (by omega)
  rw [h0] at hg
  simp only [InstallInternetStack, hp, if_true, CreateDevices_nodes, hg, bind, Except.bind]

theorem InstallInternetStack_ok_spec (self : AodvExample) (net : Network)
    (hok : InstallInternetStack self (CreateDevices self (CreateNodes self)) = .ok net) :
    (self.printRoutes = true → 0 < self.size) ∧
      net.nodes = (CreateNodes self).nodes ∧
      net.interfaces = (List.range self.size).map (fun (i : Nat) => ⟨i, baseAddress + (i + 1)⟩) ∧
      net.applications = [] ∧
      net.events = if self.printRoutes then
        ⟨10, .printRoutingTable 0 "aodv.routes"⟩ ::
          ([10, 50, 100, 150, 200].map fun (t : ℚ) =>
            (List.range self.size).map fun (i : Nat) =>
              (⟨t, .printRoutingTable i "aodv.routes"⟩ : Event)).flatten
        else [] := by
  have hs : self.printRoutes = true → 0 < self.size := by
    intro hp
    by_contra h0
    rw [InstallInternetStack_error self hp (by omega)] at hok
    cases hok
  obtain ⟨net1, h1, hrest⟩ := InstallInternetStack_spec self hs
  rw [h1] at hok
  cases hok
  exact ⟨hs, hrest⟩

theorem Run_ok_spec (self : AodvExample) (net : Network) (hok : Run self = .ok net) :
    5 ≤ self.size ∧
      net.nodes = (List.range self.size).map
        (fun (i : Nat) => (⟨i, some ⟨Double.round (self.step * i), 0, 0⟩⟩ : Node)) ∧
      net.interfaces = (List.range self.size).map (fun (i : Nat) => ⟨i, baseAddress + (i + 1)⟩) ∧
      net.applications =
        [⟨4, .udpEchoServer 9, 0, 200⟩,
         ⟨0, .udpEchoClient (baseAddress + 5) 9 21 10 1024, 10, 200⟩] ∧
      net.events = (if self.printRoutes then
        ⟨10, .printRoutingTable 0 "aodv.routes"⟩ ::
          ([10, 50, 100, 150, 200].map fun (t : ℚ) =>
            (List.range self.size).map fun (i : Nat) =>
              (⟨t, .printRoutingTable i "aodv.routes"⟩ : Event)).flatten
        else []) ++
        [⟨25, .setPosition 0 ⟨110, 0, 0⟩⟩, ⟨75, .setPosition 0 ⟨180, 0, 0⟩⟩,
         ⟨125, .setPosition 0 ⟨250, 0, 0⟩⟩, ⟨self.totalTime, .stop⟩] := by
  have hs : 5 ≤ self.size := by
    by_contra hlt
    obtain ⟨err, herr⟩ := Run_error_of_size_lt self (by omega)
    rw [herr] at hok
    cases hok
  obtain ⟨net1, h1, hrest⟩ := Run_spec self hs
  rw [h1] at hok
  cases hok
  exact ⟨hs, hrest⟩

theorem Run_ok_of_size (self : AodvExample) (h : 5 ≤ self.size) : ∃ net, Run self = .ok net := by
  obtain ⟨net, hrun, -⟩ := Run_spec self h
  exact ⟨net, hrun⟩

theorem distanceAt_intro {net : Network} {i j : Nat} {t d : ℚ} {a b : Vector}
    (ha : positionAt net i t = some a) (hb : positionAt net j t = some b)
    (h : isDistance a b d) : distanceAt net i j t d := by
  unfold distanceAt
  rw [ha, hb]
  exact h

theorem distanceAt_elim {net : Network} {i j : Nat} {t d : ℚ} (h : distanceAt net i j t d) :
    ∃ a b, positionAt net i t = some a ∧ positionAt net j t = some b ∧ isDistance a b d := by
  unfold distanceAt at h
  split at h
  · exact ⟨_, _, by assumption, by assumption, h⟩
  · exact h.elim

theorem CreateNodes_positionAt (self : AodvExample) (i : Nat) (t : ℚ) :
    positionAt (CreateNodes self) i t =
      if i < self.size then some ⟨Double.round (self.step * i), 0, 0⟩ else none := by
  have hw : waypoints (CreateNodes self) i = [] := rfl
  unfold positionAt
  rw [List.get?_eq_getElem?, hw]
  by_cases hi : i < self.size
  · rw [CreateNodes_getElem? self i hi]
    simp [hi, heldPosition]
  · rw [CreateNodes_getElem?_none self i (by omega)]
    simp [hi]

/-! ## C1: configuration is never rejected -/

theorem parseUint32_eq_none (n : Nat) : parseUint32 n = none ↔ 2 ^ 32 ≤ n := by
  unfold parseUint32
  by_cases h : n < 2 ^ 32
  · simp [h]
  · simp only [h, if_false, true_iff]
    omega

theorem extract_eq_none {α β : Type} (given : Option α) (parse : α → Option β) (current : β) :
    CommandLine.extract given parse current = none ↔ ∃ v, given = some v ∧ parse v = none := by
  cases given with
  | none => simp [CommandLine.extract]
  | some v => simp [CommandLine.extract]

theorem Configure_eq_some (cmd : CommandLine) (self : AodvExample) (ok : Bool)
    (cfg : AodvExample) (h : Configure cmd self = some (ok, cfg)) :
    ok = true ∧
      CommandLine.extract cmd.size parseUint32 self.size = some cfg.size ∧
      CommandLine.extract cmd.time parseDouble self.totalTime = some cfg.totalTime ∧
      CommandLine.extract cmd.step parseDouble self.step = some cfg.step ∧
      cfg.pcap = cmd.pcap.getD self.pcap ∧
      cfg.printRoutes = cmd.printRoutes.getD self.printRoutes := by
  unfold Configure at h
  split at h
  · rename_i size totalTime step hs ht hst
    simp only [Option.some.injEq, Prod.mk.injEq] at h
    obtain ⟨rfl, rfl⟩ := h
    exact ⟨rfl, hs, ht, hst, rfl, rfl⟩
  · cases h

theorem Configure_eq_none (cmd : CommandLine) (self : AodvExample) :
    Configure cmd self = none ↔
      (∃ n, cmd.size = some n ∧ 2 ^ 32 ≤ n) ∨
      (∃ q, cmd.time = some q ∧ parseDouble q = none) ∨
      (∃ q, cmd.step = some q ∧ parseDouble q = none) := by
  have h1 := extract_eq_none cmd.size parseUint32 self.size
  have h2 := extract_eq_none cmd.time parseDouble self.totalTime
  have h3 := extract_eq_none cmd.step parseDouble self.step
  simp only [parseUint32_eq_none] at h1
  rw [← h1, ← h2, ← h3]
  unfold Configure
  cases CommandLine.extract cmd.size parseUint32 self.size <;>
    cases CommandLine.extract cmd.time parseDouble self.totalTime <;>
    cases CommandLine.extract cmd.step parseDouble self.step <;> simp

/-- C1, the claim as stated fails: with `--size=0` on the command line `Configure`
stores the size zero and yet reports success; `main` does not take the
fatal-error branch and calls `Run` (where the lookup of node 0 then fails). -/
theorem C1_counterexample :
    Configure ⟨none, none, some 0, none, none⟩ AodvExample.new =
      some (true, { AodvExample.new with size := 0 }) ∧
    ({ AodvExample.new with size := 0 } : AodvExample).size = 0 ∧
    main ⟨none, none, some 0, none, none⟩ = .ran (.error (.nodeIndex 0 0)) := by
  refine ⟨rfl, rfl, ?_⟩
  rfl

/-- C1 as amended: `Configure` performs no validation. Whenever it returns, it
returns true, having stored the values extracted from the command line; it
does not return exactly when a value cannot be extracted (a size of `2 ^ 32`
or more, a step or duration out of the range of double), the process then
being ended inside `Parse`. In particular every size below `2 ^ 32` (also
zero) and every integer step and duration of magnitude below `2 ^ 53` (also
negative) are accepted. `main` never takes the fatal-error branch: whenever
`Configure` returns, it calls `Run` on the configured parameters. -/
theorem C1_configure_always_succeeds (cmd : CommandLine) (self : AodvExample) :
    (∀ ok cfg, Configure cmd self = some (ok, cfg) →
      ok = true ∧
      CommandLine.extract cmd.size parseUint32 self.size = some cfg.size ∧
      CommandLine.extract cmd.time parseDouble self.totalTime = some cfg.totalTime ∧
      CommandLine.extract cmd.step parseDouble self.step = some cfg.step) ∧
    (Configure cmd self = none ↔
      (∃ n, cmd.size = some n ∧ 2 ^ 32 ≤ n) ∨
      (∃ q, cmd.time = some q ∧ parseDouble q = none) ∨
      (∃ q, cmd.step = some q ∧ parseDouble q = none)) ∧
    (∀ (n : Nat) (time step : ℤ), n < 2 ^ 32 → |time| < 2 ^ 53 → |step| < 2 ^ 53 →
      Configure ⟨cmd.pcap, cmd.printRoutes, some n, some (time : ℚ), some (step : ℚ)⟩ self =
        some (true, ⟨n, step, time, cmd.pcap.getD self.pcap,
          cmd.printRoutes.getD self.printRoutes⟩)) ∧
    (∀ msg, main cmd ≠ .fatalError msg) ∧
    (∀ ok cfg, Configure cmd AodvExample.new = some (ok, cfg) → main cmd = .ran (Run cfg)) ∧
    (Configure cmd AodvExample.new = none → main cmd = .exited) := by
  refine ⟨?_, Configure_eq_none cmd self, ?_, ?_, ?_, ?_⟩
  · intro ok cfg h
    obtain ⟨h1, h2, h3, h4, -⟩ := Configure_eq_some cmd self ok cfg h
    exact ⟨h1, h2, h3, h4⟩
  · intro n time step hn ht hs
    have h1 : parseUint32 n = some n := by
      unfold parseUint32
      rw [if_pos hn]
    simp only [Configure, CommandLine.extract, h1, parseDouble_intCast time ht,
      parseDouble_intCast step hs]
  · intro msg hmain
    unfold main at hmain
    split at hmain
    · cases hmain
    · rename_i ok test hc
      have hok := (Configure_eq_some cmd _ ok test hc).1
      subst hok
      simp at hmain
  · intro ok cfg h
    have hok := (Configure_eq_some cmd _ ok cfg h).1
    subst hok
    simp [main, h]
  · intro h
    simp [main, h]

/-! ## C2: the nodes are created on a line -/

theorem distSq_on_axis (a b : ℚ) :
    distSq ⟨.finite a, 0, 0⟩ ⟨.finite b, 0, 0⟩ = some ((a - b) ^ 2) := by
  simp [distSq, Vector.finite?]

theorem isDistance_unique (a b : Vector) (d e : ℚ) (hd : isDistance a b d)
    (he : isDistance a b e) : d = e := by
  obtain ⟨hd0, hd⟩ := hd
  obtain ⟨he0, he⟩ := he
  rw [hd] at he
  simp only [Option.some.injEq] at he
  exact (pow_left_inj₀ hd0 he0 (by norm_num)).1 he

theorem distanceAt_unique (net : Network) (i j : Nat) (t d e : ℚ)
    (hd : distanceAt net i j t d) (he : distanceAt net i j t e) : d = e := by
  obtain ⟨a, b, ha, hb, hab⟩ := distanceAt_elim hd
  obtain ⟨a', b', ha', hb', hab'⟩ := distanceAt_elim he
  rw [ha] at ha'
  rw [hb] at hb'
  cases ha'
  cases hb'
  exact isDistance_unique a b d e hab hab'

theorem Configure_step_one_tenth :
    Configure ⟨none, none, none, none, some (1 / 10)⟩ AodvExample.new =
      some (true, ⟨5, 3602879701896397 / 2 ^ 55, 200, true, true⟩) := by
  have h : parseDouble (1 / 10) = some (3602879701896397 / 2 ^ 55) := by
    unfold parseDouble
    rw [round_one_tenth]
  simp only [Configure, CommandLine.extract, h]
  rfl

/-- C2, the claim as stated fails: with `--step=0.1` the stored step is the double
nearest to 0.1, the products `step*2` and `step*3` round to
`3602879701896397 / 2^54` and `5404319552844596 / 2^54`, and nodes 2 and 3
are `1801439850948199 / 2^54` (about 0.10000000000000003) apart, which is
not `step`. -/
theorem C2_counterexample :
    ∃ cfg, Configure ⟨none, none, none, none, some (1 / 10)⟩ AodvExample.new = some (true, cfg) ∧
      cfg.step = 3602879701896397 / 2 ^ 55 ∧ 0 ≤ cfg.step ∧ 3 < cfg.size ∧
      positionAt (CreateNodes cfg) 2 0 = some ⟨.finite (3602879701896397 / 2 ^ 54), 0, 0⟩ ∧
      positionAt (CreateNodes cfg) 3 0 =
        some ⟨.finite (5404319552844596 / 2 ^ 54), 0, 0⟩ ∧
      distanceAt (CreateNodes cfg) 2 3 0 (1801439850948199 / 2 ^ 54) ∧
      ¬ distanceAt (CreateNodes cfg) 2 3 0 cfg.step := by
  refine ⟨_, Configure_step_one_tenth, rfl, by norm_num, by decide, ?_⟩
  have p2 : positionAt (CreateNodes ⟨5, 3602879701896397 / 2 ^ 55, 200, true, true⟩) 2 0 =
      some ⟨.finite (3602879701896397 / 2 ^ 54), 0, 0⟩ := by
    rw [CreateNodes_positionAt, if_pos (by decide)]
    simp only [round_one_tenth_mul_two]
  have p3 : positionAt (CreateNodes ⟨5, 3602879701896397 / 2 ^ 55, 200, true, true⟩) 3 0 =
      some ⟨.finite (5404319552844596 / 2 ^ 54), 0, 0⟩ := by
    rw [CreateNodes_positionAt, if_pos (by decide)]
    simp only [round_one_tenth_mul_three]
  have hd : distanceAt (CreateNodes ⟨5, 3602879701896397 / 2 ^ 55, 200, true, true⟩) 2 3 0
      (1801439850948199 / 2 ^ 54) := by
    refine distanceAt_intro p2 p3 ⟨by norm_num, ?_⟩
    rw [distSq_on_axis]
    norm_num
  refine ⟨p2, p3, hd, ?_⟩
  intro hstep
  have := distanceAt_unique _ _ _ _ _ _ hd hstep
  norm_num at this

theorem round_default_step (self : AodvExample) (hst : self.step = 70) (i : Nat)
    (hi : i < 2 ^ 32) : Double.round (self.step * i) = .finite (70 * i) := by
  rw [Double.round_int_mul self.step 70 i (by rw [hst]; norm_num) (by
    have : ((i : ℤ)) < 2 ^ 32 := by exact_mod_cast hi
    rw [abs_of_nonneg (by norm_num)]
    omega), hst]

/-- C2 as amended: `CreateNodes` creates exactly `size` nodes and node `i` (for every
`i < size`) gets the initial position `(step*i, 0, 0)`, the product being
the double-precision product. Whenever these products are exact, for
`step >= 0` every two consecutive nodes are exactly `step` apart and nodes
`i` and `j` are `|i-j|*step` apart; they are exact for every integer step
with `|step| * size <= 2^53`. With the constructor defaults (size 5, step
70) the positions are x = 0, 70, 140, 210, 280. -/
theorem C2_line_layout (self : AodvExample) :
    (CreateNodes self).nodes.length = self.size ∧
    (∀ i, i < self.size →
      (CreateNodes self).nodes.get? i =
        some ⟨i, some ⟨Double.round (self.step * i), 0, 0⟩⟩) ∧
    ((∀ i, i < self.size → Double.round (self.step * i) = .finite (self.step * i)) →
      0 ≤ self.step →
      (∀ i, i + 1 < self.size → distanceAt (CreateNodes self) i (i + 1) 0 self.step) ∧
      (∀ i j, i < self.size → j < self.size →
        distanceAt (CreateNodes self) i j 0 (|(i : ℚ) - j| * self.step))) ∧
    (∀ m : ℤ, self.step = m → |m| * self.size ≤ 2 ^ 53 →
      ∀ i, i < self.size → Double.round (self.step * i) = .finite (self.step * i)) ∧
    (CreateNodes AodvExample.new).nodes =
      [⟨0, some ⟨0, 0, 0⟩⟩, ⟨1, some ⟨70, 0, 0⟩⟩, ⟨2, some ⟨140, 0, 0⟩⟩,
       ⟨3, some ⟨210, 0, 0⟩⟩, ⟨4, some ⟨280, 0, 0⟩⟩] := by
  refine ⟨CreateNodes_length self, ?_, ?_, ?_, ?_⟩
  · intro i hi
    rw [List.get?_eq_getElem?]
    exact CreateNodes_getElem? self i hi
  · intro hex hs
    have hpos : ∀ i, i < self.size →
        positionAt (CreateNodes self) i 0 = some ⟨.finite (self.step * i), 0, 0⟩ := by
      intro i hi
      rw [CreateNodes_positionAt, if_pos hi, hex i hi]
    constructor
    · intro i hi
      refine distanceAt_intro (hpos i (by omega)) (hpos (i + 1) hi) ⟨hs, ?_⟩
      rw [distSq_on_axis]
      congr 1
      push_cast
      ring
    · intro i j hi hj
      refine distanceAt_intro (hpos i hi) (hpos j hj) ⟨mul_nonneg (abs_nonneg _) hs, ?_⟩
      rw [distSq_on_axis, mul_pow, sq_abs]
      congr 1
      ring
  · intro m hm hbound i hi
    refine Double.round_int_mul self.step m i hm ?_
    have h1 : (i : ℤ) < self.size := by exact_mod_cast hi
    have h0 : (0 : ℤ) ≤ |m| := abs_nonneg m
    by_cases hz : |m| = 0
    · rw [hz]
      norm_num
    · have hpos : 0 < |m| := lt_of_le_of_ne h0 (Ne.symm hz)
      calc |m| * (i : ℤ) < |m| * self.size := by
            exact mul_lt_mul_of_pos_left h1 hpos
        _ ≤ 2 ^ 53 := hbound
  · rw [CreateNodes_nodes]
    simp only [AodvExample.new, List.range_succ, List.range_zero, List.nil_append,
      List.cons_append, List.map_cons, List.map_nil]
    have h := fun i hi => round_default_step AodvExample.new rfl i hi
    simp only [AodvExample.new] at h
    rw [h 0 (by norm_num), h 1 (by norm_num), h 2 (by norm_num), h 3 (by norm_num),
      h 4 (by norm_num)]
    simp only [Double.ofNat_eq_finite]
    norm_num

/-- C2 as amended, at the constructor defaults: the products 70*i are exact, five
nodes are created, consecutive nodes are 70 apart and nodes 0 and 4 are 280
apart. -/
theorem C2_line_layout_witness :
    (∀ i, i < AodvExample.new.size →
      Double.round (AodvExample.new.step * i) = .finite (AodvExample.new.step * i)) ∧
    0 ≤ AodvExample.new.step ∧
    (CreateNodes AodvExample.new).nodes.length = 5 ∧
    distanceAt (CreateNodes AodvExample.new) 1 2 0 70 ∧
    distanceAt (CreateNodes AodvExample.new) 0 4 0 (|((0 : Nat) : ℚ) - (4 : Nat)| * 70) :=
  ⟨(C2_line_layout AodvExample.new).2.2.2.1 70 (by norm_num [AodvExample.new])
      (by norm_num [AodvExample.new]),
   by norm_num [AodvExample.new],
   (C2_line_layout AodvExample.new).1,
   ((C2_line_layout AodvExample.new).2.2.1
      ((C2_line_layout AodvExample.new).2.2.2.1 70 (by norm_num [AodvExample.new])
        (by norm_num [AodvExample.new]))
      (by norm_num [AodvExample.new])).1 1 (by decide),
   ((C2_line_layout AodvExample.new).2.2.1
      ((C2_line_layout AodvExample.new).2.2.2.1 70 (by norm_num [AodvExample.new])
        (by norm_num [AodvExample.new]))
      (by norm_num [AodvExample.new])).2 0 4 (by decide) (by decide)⟩

/-! ## C3: the mobility schedule -/

theorem filterMap_dumps {β : Type} (f : Event → Option β)
    (hf : ∀ t i s, f ⟨t, .printRoutingTable i s⟩ = none) (b : Bool) (n : Nat)
    (rest : List Event) :
    ((if b = true then
        (⟨10, .printRoutingTable 0 "aodv.routes"⟩ : Event) ::
          ([10, 50, 100, 150, 200].map fun (t : ℚ) =>
            (List.range n).map fun (i : Nat) =>
              (⟨t, .printRoutingTable i "aodv.routes"⟩ : Event)).flatten
      else []) ++ rest).filterMap f = rest.filterMap f := by
  have key : ∀ t : ℚ, ((List.range n).map fun (i : Nat) =>
      (⟨t, .printRoutingTable i "aodv.routes"⟩ : Event)).filterMap f = [] := by
    intro t
    rw [List.filterMap_eq_nil_iff]
    intro e he
    obtain ⟨i, -, rfl⟩ := List.mem_map.1 he
    exact hf _ _ _
  cases b
  · simp
  · simp [List.filterMap_append, key, hf]

theorem Run_waypoints_zero (self : AodvExample) (net : Network)
    (he : net.events = (if self.printRoutes then
        ⟨10, .printRoutingTable 0 "aodv.routes"⟩ ::
          ([10, 50, 100, 150, 200].map fun (t : ℚ) =>
            (List.range self.size).map fun (i : Nat) =>
              (⟨t, .printRoutingTable i "aodv.routes"⟩ : Event)).flatten
        else []) ++
        [⟨25, .setPosition 0 ⟨110, 0, 0⟩⟩, ⟨75, .setPosition 0 ⟨180, 0, 0⟩⟩,
         ⟨125, .setPosition 0 ⟨250, 0, 0⟩⟩, ⟨self.totalTime, .stop⟩]) :
    waypoints net 0 = [(25, ⟨110, 0, 0⟩), (75, ⟨180, 0, 0⟩), (125, ⟨250, 0, 0⟩)] ∧
    ∀ i, i ≠ 0 → waypoints net i = [] := by
  constructor
  · unfold waypoints
    rw [he, filterMap_dumps _ (fun _ _ _ => rfl)]
    rfl
  · intro i hi
    unfold waypoints
    rw [he, filterMap_dumps _ (fun _ _ _ => rfl)]
    have hi' : ¬ (0 = i) := fun h => hi h.symm
    simp [hi']

/-- C3: whenever `Run` completes its set-up, the schedule it leaves holds exactly
three waypoint events, all for node 0 and none for any other node, at the
strictly increasing times 25, 75, 125 with positions (110,0,0), (180,0,0),
(250,0,0) in that order, and every node other than node 0 is at its initial
position `(step*i, 0, 0)` (the double-precision product) at every time;
set-up completes for every size of at least 5. -/
theorem C3_mobility_schedule (self : AodvExample) :
    (∀ net, Run self = .ok net →
      waypointEvents net =
        [(25, 0, ⟨110, 0, 0⟩), (75, 0, ⟨180, 0, 0⟩), (125, 0, ⟨250, 0, 0⟩)] ∧
      List.Pairwise (fun a b => a < b) ((waypointEvents net).map fun w => w.1) ∧
      (∀ i, i ≠ 0 → waypoints net i = []) ∧
      (∀ i t, 0 < i → i < self.size → positionAt net i t = some ⟨Double.round (self.step * i), 0, 0⟩)) ∧
    (5 ≤ self.size → ∃ net, Run self = .ok net) := by
  refine ⟨?_, Run_ok_of_size self⟩
  intro net hrun
  obtain ⟨-, hn, -, -, he⟩ := Run_ok_spec self net hrun
  have hw : waypointEvents net =
      [(25, 0, ⟨110, 0, 0⟩), (75, 0, ⟨180, 0, 0⟩), (125, 0, ⟨250, 0, 0⟩)] := by
    unfold waypointEvents
    rw [he, filterMap_dumps _ (fun _ _ _ => rfl)]
    rfl
  have hwi := (Run_waypoints_zero self net he).2
  refine ⟨hw, ?_, hwi, ?_⟩
  · rw [hw]
    simp
    norm_num
  · intro i t h0 hi
    unfold positionAt
    rw [List.get?_eq_getElem?, hn, hwi i (by omega)]
    simp [List.getElem?_range, hi, heldPosition]

/-- C3 at the constructor defaults: set-up completes and leaves the schedule described. -/
theorem C3_mobility_schedule_witness :
    ∃ net, Run AodvExample.new = .ok net ∧
      waypointEvents net =
        [(25, 0, ⟨110, 0, 0⟩), (75, 0, ⟨180, 0, 0⟩), (125, 0, ⟨250, 0, 0⟩)] ∧
      List.Pairwise (fun a b => a < b) ((waypointEvents net).map fun w => w.1) ∧
      (∀ i, i ≠ 0 → waypoints net i = []) ∧
      (∀ i t, 0 < i → i < AodvExample.new.size →
        positionAt net i t = some ⟨Double.round (AodvExample.new.step * i), 0, 0⟩) :=
  ((C3_mobility_schedule AodvExample.new).2 (by decide)).elim fun net hrun =>
    ⟨net, hrun, (C3_mobility_schedule AodvExample.new).1 net hrun⟩

/-! ## C4: the traffic flow -/

theorem sendTicks_cap (node addr port size : Nat) (m : Nat) (hm : 21 ≤ m) :
    sendTicks ⟨node, .udpEchoClient addr port m 10 size, 10, 200⟩ =
      sendTicks ⟨node, .udpEchoClient addr port 21 10 size, 10, 200⟩ := by
  obtain ⟨d, rfl⟩ := Nat.exists_eq_add_of_le hm
  simp only [sendTicks]
  rw [List.range_add, List.map_append, List.filter_append]
  have htail : (List.map (fun (k : Nat) => (10 : ℚ) + 10 * k)
      (List.map (fun x => 21 + x) (List.range d))).filter
        (fun t => decide (t < 200)) = [] := by
    rw [List.filter_eq_nil_iff]
    intro t ht
    simp only [List.mem_map, List.mem_range] at ht
    obtain ⟨k, ⟨x, -, rfl⟩, rfl⟩ := ht
    simp only [decide_eq_true_eq, not_lt]
    push_cast
    have : (0 : ℚ) ≤ x := Nat.cast_nonneg x
    linarith
  rw [htail, List.append_nil]

/-- C4: whenever `Run` completes its set-up, the echo server is installed on node 4
on port 9, active from 0 to 200, and the echo client is installed on node 0,
addressed to the interface of node 4 (10.0.0.5) on port 9, with MaxPackets
21, interval 10 s, packet size 1024, start 10 and stop 200. The send ticks
strictly before 200 are exactly 10, 20, ..., 190 (19 ticks, fewer than the
cap of 21), and any larger cap gives the same ticks; set-up completes for
every size of at least 5. -/
theorem C4_traffic_flow (self : AodvExample) :
    (∀ net, Run self = .ok net →
      net.interfaces.get? 4 = some ⟨4, baseAddress + 5⟩ ∧
      net.applications =
        [⟨4, .udpEchoServer 9, 0, 200⟩,
         ⟨0, .udpEchoClient (baseAddress + 5) 9 21 10 1024, 10, 200⟩] ∧
      net.applications.map sendTicks =
        [[], [10, 20, 30, 40, 50, 60, 70, 80, 90, 100, 110, 120, 130, 140, 150, 160, 170,
              180, 190]] ∧
      (∀ a ∈ net.applications, ∀ addr port cap iv sz,
        a.kind = .udpEchoClient addr port cap iv sz →
          (sendTicks a).length = 19 ∧ (sendTicks a).length < cap) ∧
      (∀ m, 21 ≤ m →
        sendTicks ⟨0, .udpEchoClient (baseAddress + 5) 9 m 10 1024, 10, 200⟩ =
          sendTicks ⟨0, .udpEchoClient (baseAddress + 5) 9 21 10 1024, 10, 200⟩)) ∧
    (5 ≤ self.size → ∃ net, Run self = .ok net) := by
  refine ⟨?_, Run_ok_of_size self⟩
  intro net hrun
  obtain ⟨h, -, hi, ha, -⟩ := Run_ok_spec self net hrun
  have hticks : net.applications.map sendTicks =
      [[], [10, 20, 30, 40, 50, 60, 70, 80, 90, 100, 110, 120, 130, 140, 150, 160, 170,
            180, 190]] := by
    rw [ha]
    simp [sendTicks, List.range_succ]
    norm_num
  refine ⟨?_, ha, hticks, ?_, fun m hm => sendTicks_cap 0 _ 9 1024 m hm⟩
  · rw [List.get?_eq_getElem?, hi]
    simp [List.getElem?_range, show 4 < self.size by omega]
  · intro a ha' addr port cap iv sz hk
    rw [ha] at ha' hticks
    simp only [List.mem_cons, List.mem_singleton, List.not_mem_nil, or_false] at ha'
    simp only [List.map_cons, List.map_nil, List.cons.injEq, and_true] at hticks
    rcases ha' with rfl | rfl
    · simp at hk
    · simp only [AppKind.udpEchoClient.injEq] at hk
      obtain ⟨-, -, rfl, -, -⟩ := hk
      rw [hticks.2]
      simp

/-- C4 at the constructor defaults: set-up completes and installs the flow described. -/
theorem C4_traffic_flow_witness :
    ∃ net, Run AodvExample.new = .ok net ∧
      net.interfaces.get? 4 = some ⟨4, baseAddress + 5⟩ ∧
      net.applications =
        [⟨4, .udpEchoServer 9, 0, 200⟩,
         ⟨0, .udpEchoClient (baseAddress + 5) 9 21 10 1024, 10, 200⟩] ∧
      net.applications.map sendTicks =
        [[], [10, 20, 30, 40, 50, 60, 70, 80, 90, 100, 110, 120, 130, 140, 150, 160, 170,
              180, 190]] ∧
      (∀ a ∈ net.applications, ∀ addr port cap iv sz,
        a.kind = .udpEchoClient addr port cap iv sz →
          (sendTicks a).length = 19 ∧ (sendTicks a).length < cap) ∧
      (∀ m, 21 ≤ m →
        sendTicks ⟨0, .udpEchoClient (baseAddress + 5) 9 m 10 1024, 10, 200⟩ =
          sendTicks ⟨0, .udpEchoClient (baseAddress + 5) 9 21 10 1024, 10, 200⟩) :=
  ((C4_traffic_flow AodvExample.new).2 (by decide)).elim fun net hrun =>
    ⟨net, hrun, (C4_traffic_flow AodvExample.new).1 net hrun⟩

/-! ## C5 and C6: the routing-table snapshots -/

theorem dumpTimes_dumps (t : ℚ) (stream : String) (n : Nat) :
    ((List.range n).map fun (i : Nat) => (⟨t, .printRoutingTable i stream⟩ : Event)).filterMap
      (fun e => match e.action with
        | .printRoutingTable _ _ => some e.time
        | _ => none) = List.replicate n t := by
  induction n with
  | zero => rfl
  | succ n ih =>
    rw [List.range_succ, List.map_append, List.filterMap_append, ih, List.replicate_succ']
    rfl

theorem InstallInternetStack_dumpTimes (self : AodvExample) (net : Network)
    (hp : self.printRoutes = true)
    (he : net.events = if self.printRoutes then
        ⟨10, .printRoutingTable 0 "aodv.routes"⟩ ::
          ([10, 50, 100, 150, 200].map fun (t : ℚ) =>
            (List.range self.size).map fun (i : Nat) =>
              (⟨t, .printRoutingTable i "aodv.routes"⟩ : Event)).flatten
        else []) :
    dumpTimes net = 10 :: (List.replicate self.size 10 ++ (List.replicate self.size 50 ++
      (List.replicate self.size 100 ++ (List.replicate self.size 150 ++
        List.replicate self.size 200)))) := by
  unfold dumpTimes
  rw [he, hp]
  simp only [if_true, List.map_cons, List.map_nil, List.flatten_cons, List.flatten_nil,
    List.append_nil, List.filterMap_cons, List.filterMap_append, dumpTimes_dumps]

theorem mem_dumpTimes (self : AodvExample) (net : Network) (hs : 0 < self.size)
    (hd : dumpTimes net = 10 :: (List.replicate self.size 10 ++ (List.replicate self.size 50 ++
      (List.replicate self.size 100 ++ (List.replicate self.size 150 ++
        List.replicate self.size 200))))) (t : ℚ) :
    t ∈ dumpTimes net ↔ t = 10 ∨ t = 50 ∨ t = 100 ∨ t = 150 ∨ t = 200 := by
  have hne : self.size ≠ 0 := by omega
  rw [hd]
  simp only [List.mem_cons, List.mem_append, List.mem_replicate, hne, ne_eq, not_false_eq_true,
    true_and]
  tauto

theorem sorted_replicate_append (n : Nat) (a : ℚ) (l : List ℚ)
    (hl : List.Sorted (fun a b => a ≤ b) l) (h : ∀ b ∈ l, a ≤ b) :
    List.Sorted (fun a b => a ≤ b) (List.replicate n a ++ l) := by
  induction n with
  | zero => simpa using hl
  | succ n ih =>
    rw [List.replicate_succ, List.cons_append, List.sorted_cons]
    refine ⟨?_, ih⟩
    intro b hb
    rcases List.mem_append.1 hb with hb | hb
    · rw [List.eq_of_mem_replicate hb]
    · exact h b hb

theorem dumpCount_dumps (node : Nat) (t u : ℚ) (stream : String) (n : Nat) :
    (((List.range n).map fun (i : Nat) => (⟨u, .printRoutingTable i stream⟩ : Event)).filter
      (fun e => match e.action with
        | .printRoutingTable k _ => decide (k = node) && decide (e.time = t)
        | _ => false)).length = if u = t ∧ node < n then 1 else 0 := by
  induction n with
  | zero => simp
  | succ n ih =>
    rw [List.range_succ, List.map_append, List.filter_append, List.length_append, ih]
    by_cases hu : u = t
    · by_cases hn : n = node
      · subst hn
        simp [hu]
      · have hlt : (node < n + 1) = (node < n) := by
          apply propext
          constructor <;> intro h <;> omega
        simp [hu, hn, hlt]
    · simp [hu]

theorem InstallInternetStack_dumpCount (self : AodvExample) (net : Network)
    (hp : self.printRoutes = true)
    (he : net.events = if self.printRoutes then
        ⟨10, .printRoutingTable 0 "aodv.routes"⟩ ::
          ([10, 50, 100, 150, 200].map fun (t : ℚ) =>
            (List.range self.size).map fun (i : Nat) =>
              (⟨t, .printRoutingTable i "aodv.routes"⟩ : Event)).flatten
        else []) (i : Nat) (t : ℚ) :
    dumpCount net i t = (if i = 0 ∧ t = 10 then 1 else 0) +
      ((if (10 : ℚ) = t ∧ i < self.size then 1 else 0) +
       ((if (50 : ℚ) = t ∧ i < self.size then 1 else 0) +
        ((if (100 : ℚ) = t ∧ i < self.size then 1 else 0) +
         ((if (150 : ℚ) = t ∧ i < self.size then 1 else 0) +
          (if (200 : ℚ) = t ∧ i < self.size then 1 else 0))))) := by
  have hsingle : ([(⟨10, .printRoutingTable 0 "aodv.routes"⟩ : Event)].filter
      (fun e => match e.action with
        | .printRoutingTable k _ => decide (k = i) && decide (e.time = t)
        | _ => false)).length = if i = 0 ∧ t = 10 then 1 else 0 := by
    by_cases h0 : i = 0
    · by_cases h10 : t = 10
      · simp [h0, h10]
      · have h10' : ¬ ((10 : ℚ) = t) := fun h => h10 h.symm
        simp [h0, h10, h10']
    · have h0' : ¬ (0 = i) := fun h => h0 h.symm
      simp [h0, h0']
  unfold dumpCount
  rw [he, hp]
  simp only [if_true, List.map_cons, List.map_nil, List.flatten_cons, List.flatten_nil,
    List.append_nil]
  rw [← List.singleton_append]
  simp only [List.filter_append, List.length_append, dumpCount_dumps, hsingle]

/-- C5: whenever `InstallInternetStack` completes: if `printRoutes` is true, the
instants at which routing-table dumps are scheduled are exactly 10, 50, 100,
150, 200, they are scheduled in non-decreasing order, each is an all-nodes
dump (every node has a dump at it) and each is at most the default duration
200; if `printRoutes` is false nothing is scheduled. It completes unless
`printRoutes` is true and there is no node 0 to look up. -/
theorem C5_snapshot_instants (self : AodvExample) :
    (∀ net, InstallInternetStack self (CreateDevices self (CreateNodes self)) = .ok net →
      (self.printRoutes = true →
        (dumpTimes net).toFinset = {10, 50, 100, 150, 200} ∧
        List.Sorted (fun a b => a ≤ b) (dumpTimes net) ∧
        (∀ t ∈ dumpTimes net, ∀ i, i < self.size → 0 < dumpCount net i t) ∧
        (∀ t ∈ dumpTimes net, t ≤ AodvExample.new.totalTime)) ∧
      (self.printRoutes = false → net.events = [] ∧ dumpTimes net = [])) ∧
    ((self.printRoutes = true → 0 < self.size) →
      ∃ net, InstallInternetStack self (CreateDevices self (CreateNodes self)) = .ok net) := by
  constructor
  swap
  · intro h
    obtain ⟨net, hrun, -⟩ := InstallInternetStack_spec self h
    exact ⟨net, hrun⟩
  intro net hrun
  obtain ⟨h, -, -, -, he⟩ := InstallInternetStack_ok_spec self net hrun
  refine ⟨?_, ?_⟩
  · intro hp
    have hd := InstallInternetStack_dumpTimes self net hp he
    have hmem := mem_dumpTimes self net (h hp) hd
    refine ⟨?_, ?_, ?_, ?_⟩
    · ext t
      rw [List.mem_toFinset, hmem]
      simp
    · rw [hd]
      have m200 : List.Sorted (fun a b : ℚ => a ≤ b) (List.replicate self.size 200) := by
        simpa using sorted_replicate_append self.size 200 [] List.sorted_nil (by simp)
      have m150 := sorted_replicate_append self.size 150 _ m200 (by
        intro b hb
        simp only [List.mem_replicate] at hb
        rcases hb with ⟨-, rfl⟩
        norm_num)
      have m100 := sorted_replicate_append self.size 100 _ m150 (by
        intro b hb
        simp only [List.mem_append, List.mem_replicate] at hb
        rcases hb with ⟨-, rfl⟩ | ⟨-, rfl⟩ <;> norm_num)
      have m50 := sorted_replicate_append self.size 50 _ m100 (by
        intro b hb
        simp only [List.mem_append, List.mem_replicate] at hb
        rcases hb with ⟨-, rfl⟩ | ⟨-, rfl⟩ | ⟨-, rfl⟩ <;> norm_num)
      have m10 := sorted_replicate_append self.size 10 _ m50 (by
        intro b hb
        simp only [List.mem_append, List.mem_replicate] at hb
        rcases hb with ⟨-, rfl⟩ | ⟨-, rfl⟩ | ⟨-, rfl⟩ | ⟨-, rfl⟩ <;> norm_num)
      refine List.sorted_cons.2 ⟨?_, m10⟩
      intro b hb
      simp only [List.mem_append, List.mem_replicate] at hb
      rcases hb with ⟨-, rfl⟩ | ⟨-, rfl⟩ | ⟨-, rfl⟩ | ⟨-, rfl⟩ | ⟨-, rfl⟩ <;> norm_num
    · intro t ht i hi
      rw [InstallInternetStack_dumpCount self net hp he]
      rcases (hmem t).1 ht with rfl | rfl | rfl | rfl | rfl <;> norm_num [hi]
    · intro t ht
      rcases (hmem t).1 ht with rfl | rfl | rfl | rfl | rfl <;> norm_num [AodvExample.new]
  · intro hp
    have he' : net.events = [] := by rw [he, hp]; rfl
    exact ⟨he', by simp [dumpTimes, he']⟩

/-- C5 at the constructor defaults (`printRoutes` true, five nodes). -/
theorem C5_snapshot_instants_witness :
    AodvExample.new.printRoutes = true ∧
    ∃ net, InstallInternetStack AodvExample.new
        (CreateDevices AodvExample.new (CreateNodes AodvExample.new)) = .ok net ∧
      (dumpTimes net).toFinset = {10, 50, 100, 150, 200} ∧
      List.Sorted (fun a b => a ≤ b) (dumpTimes net) ∧
      (∀ t ∈ dumpTimes net, ∀ i, i < AodvExample.new.size → 0 < dumpCount net i t) ∧
      (∀ t ∈ dumpTimes net, t ≤ AodvExample.new.totalTime) :=
  ⟨rfl, ((C5_snapshot_instants AodvExample.new).2 (fun _ => by decide)).elim fun net hrun =>
    ⟨net, hrun, ((C5_snapshot_instants AodvExample.new).1 net hrun).1 rfl⟩⟩

/-- C6, the claim as stated fails: with the constructor defaults, 10 is a snapshot
instant and node 0 exists, yet two dumps of node 0 are scheduled at time 10
(the single-node dump and the all-nodes dump), not one. -/
theorem C6_counterexample :
    ∃ net, InstallInternetStack AodvExample.new
        (CreateDevices AodvExample.new (CreateNodes AodvExample.new)) = .ok net ∧
      (10 : ℚ) ∈ dumpTimes net ∧ 0 < AodvExample.new.size ∧ dumpCount net 0 10 = 2 ∧
      dumpCount net 0 10 ≠ 1 := by
  obtain ⟨net, hrun, -, -, -, he⟩ := InstallInternetStack_spec AodvExample.new (fun _ => by decide)
  have hd := InstallInternetStack_dumpTimes AodvExample.new net rfl he
  have hc := InstallInternetStack_dumpCount AodvExample.new net rfl he 0 10
  have h2 : dumpCount net 0 10 = 2 := by
    rw [hc]
    norm_num [AodvExample.new]
  refine ⟨net, hrun, ?_, by decide, h2, ?_⟩
  · rw [hd]
    exact List.mem_cons_self _ _
  · rw [h2]
    decide

/-- C6 as amended: when `printRoutes` is true, then whenever `InstallInternetStack`
completes, for every snapshot instant `t` and every node `i < size` the
number of dumps of node `i` scheduled at `t` is exactly one, except for node
0 at `t = 10`, which has exactly two (the single-node dump and the all-nodes
dump); it completes whenever there is at least one node. -/
theorem C6_one_record_per_node (self : AodvExample) (hp : self.printRoutes = true) :
    (∀ net, InstallInternetStack self (CreateDevices self (CreateNodes self)) = .ok net →
      ∀ t ∈ dumpTimes net, ∀ i, i < self.size →
        dumpCount net i t = if i = 0 ∧ t = 10 then 2 else 1) ∧
    (0 < self.size →
      ∃ net, InstallInternetStack self (CreateDevices self (CreateNodes self)) = .ok net) := by
  constructor
  swap
  · intro hs
    obtain ⟨net, hrun, -⟩ := InstallInternetStack_spec self (fun _ => hs)
    exact ⟨net, hrun⟩
  intro net hrun
  obtain ⟨h, -, -, -, he⟩ := InstallInternetStack_ok_spec self net hrun
  have hs := h hp
  have hd := InstallInternetStack_dumpTimes self net hp he
  have hmem := mem_dumpTimes self net hs hd
  intro t ht i hi
  rw [InstallInternetStack_dumpCount self net hp he]
  by_cases h0 : i = 0
  · subst h0
    rcases (hmem t).1 ht with rfl | rfl | rfl | rfl | rfl <;> norm_num [hs]
  · rcases (hmem t).1 ht with rfl | rfl | rfl | rfl | rfl <;> norm_num [hi, h0]

/-- C6 as amended, at the constructor defaults. -/
theorem C6_one_record_per_node_witness :
    AodvExample.new.printRoutes = true ∧
    ∃ net, InstallInternetStack AodvExample.new
        (CreateDevices AodvExample.new (CreateNodes AodvExample.new)) = .ok net ∧
      ∀ t ∈ dumpTimes net, ∀ i, i < AodvExample.new.size →
        dumpCount net i t = if i = 0 ∧ t = 10 then 2 else 1 :=
  ⟨rfl, ((C6_one_record_per_node AodvExample.new rfl).2 (by decide)).elim fun net hrun =>
    ⟨net, hrun, (C6_one_record_per_node AodvExample.new rfl).1 net hrun⟩⟩

/-! ## C7: where the waypoints take node 0 -/

theorem Run_positions (self : AodvExample) (h : 5 ≤ self.size) :
    ∃ net, Run self = .ok net ∧
      (∀ t, positionAt net 0 t = some (heldPosition ⟨0, 0, 0⟩
        [(25, ⟨110, 0, 0⟩), (75, ⟨180, 0, 0⟩), (125, ⟨250, 0, 0⟩)] t)) ∧
      (∀ i t, 0 < i → i < self.size → positionAt net i t = some ⟨Double.round (self.step * i), 0, 0⟩) := by
  obtain ⟨net, hrun, hn, -, -, he⟩ := Run_spec self h
  obtain ⟨hw0, hwi⟩ := Run_waypoints_zero self net he
  refine ⟨net, hrun, ?_, ?_⟩
  · intro t
    unfold positionAt
    rw [List.get?_eq_getElem?, hn, hw0]
    simp [List.getElem?_range, show 0 < self.size by omega, Double.round]
  · intro i t h0 hi
    unfold positionAt
    rw [List.get?_eq_getElem?, hn, hwi i (by omega)]
    simp [List.getElem?_range, hi, heldPosition]

theorem default_positions :
    ∃ net, Run AodvExample.new = .ok net ∧
      positionAt net 0 0 = some ⟨0, 0, 0⟩ ∧ positionAt net 0 25 = some ⟨110, 0, 0⟩ ∧
      positionAt net 0 75 = some ⟨180, 0, 0⟩ ∧ positionAt net 0 125 = some ⟨250, 0, 0⟩ ∧
      (∀ t, positionAt net 1 t = some ⟨70, 0, 0⟩) ∧ (∀ t, positionAt net 2 t = some ⟨140, 0, 0⟩) ∧
      (∀ t, positionAt net 3 t = some ⟨210, 0, 0⟩) ∧
      (∀ t, positionAt net 4 t = some ⟨280, 0, 0⟩) := by
  obtain ⟨net, hrun, h0, hi⟩ := Run_positions AodvExample.new (by decide)
  refine ⟨net, hrun, ?_, ?_, ?_, ?_, ?_, ?_, ?_, ?_⟩
  · rw [h0]; norm_num [heldPosition]
  · rw [h0]; norm_num [heldPosition]
  · rw [h0]; norm_num [heldPosition]
  · rw [h0]; norm_num [heldPosition]
  · intro t
    rw [hi 1 t (by decide) (by decide), round_default_step _ rfl 1 (by norm_num)]
    simp only [Double.ofNat_eq_finite]
    norm_num
  · intro t
    rw [hi 2 t (by decide) (by decide), round_default_step _ rfl 2 (by norm_num)]
    simp only [Double.ofNat_eq_finite]
    norm_num
  · intro t
    rw [hi 3 t (by decide) (by decide), round_default_step _ rfl 3 (by norm_num)]
    simp only [Double.ofNat_eq_finite]
    norm_num
  · intro t
    rw [hi 4 t (by decide) (by decide), round_default_step _ rfl 4 (by norm_num)]
    simp only [Double.ofNat_eq_finite]
    norm_num

/-- C7, the claim as stated fails: under the default layout the distance from node 0
to node 4 is 280 initially and 170 after the first waypoint, so it does not
increase; and after the last waypoint node 0 is 30 from node 4, which is not
farther than one hop (step = 70). -/
theorem C7_counterexample :
    ∃ net, Run AodvExample.new = .ok net ∧
      distanceAt net 0 4 0 280 ∧ distanceAt net 0 4 25 170 ∧ ¬ ((280 : ℚ) < 170) ∧
      distanceAt net 0 4 125 30 ∧ ¬ (AodvExample.new.step < 30) := by
  obtain ⟨net, hrun, p0, p25, -, p125, -, -, -, p4⟩ := default_positions
  refine ⟨net, hrun, distanceAt_intro p0 (p4 0) ?_, distanceAt_intro p25 (p4 25) ?_,
    by norm_num, distanceAt_intro p125 (p4 125) ?_, by norm_num [AodvExample.new]⟩ <;>
  norm_num [isDistance, distSq, Vector.finite?]

/-- C7 as amended: the waypoints move node 0 progressively farther from its initial
position and towards the destination. Under the default layout node 0 is at
x = 0, 110, 180, 250 at t = 0, 25, 75, 125; its distance to node 4 is
280, 170, 100, 30 at those times (strictly decreasing); after the last
waypoint it is 180 and 110 from nodes 1 and 2 (farther than one hop, step =
70) and 40 and 30 from nodes 3 and 4 (within one hop). -/
theorem C7_waypoints_approach_destination :
    ∃ net, Run AodvExample.new = .ok net ∧
      positionAt net 0 0 = some ⟨0, 0, 0⟩ ∧ positionAt net 0 25 = some ⟨110, 0, 0⟩ ∧
      positionAt net 0 75 = some ⟨180, 0, 0⟩ ∧ positionAt net 0 125 = some ⟨250, 0, 0⟩ ∧
      distanceAt net 0 4 0 280 ∧ distanceAt net 0 4 25 170 ∧
      distanceAt net 0 4 75 100 ∧ distanceAt net 0 4 125 30 ∧
      distanceAt net 0 1 125 180 ∧ distanceAt net 0 2 125 110 ∧
      distanceAt net 0 3 125 40 ∧
      AodvExample.new.step < 180 ∧ AodvExample.new.step < 110 ∧
      40 < AodvExample.new.step ∧ 30 < AodvExample.new.step := by
  obtain ⟨net, hrun, p0, p25, p75, p125, p1, p2, p3, p4⟩ := default_positions
  refine ⟨net, hrun, p0, p25, p75, p125, distanceAt_intro p0 (p4 0) ?_,
    distanceAt_intro p25 (p4 25) ?_, distanceAt_intro p75 (p4 75) ?_,
    distanceAt_intro p125 (p4 125) ?_, distanceAt_intro p125 (p1 125) ?_,
    distanceAt_intro p125 (p2 125) ?_, distanceAt_intro p125 (p3 125) ?_, ?_, ?_, ?_, ?_⟩ <;>
  norm_num [isDistance, distSq, Vector.finite?, AodvExample.new]

/-! ## C8: the initial link graph is a path -/

theorem linked_CreateNodes (self : AodvExample)
    (hex : ∀ i, i < self.size → Double.round (self.step * i) = .finite (self.step * i))
    (r t : ℚ) (i j : Nat) :
    linked (CreateNodes self) r t i j = true ↔
      i < self.size ∧ j < self.size ∧ i ≠ j ∧ 0 < r ∧
        (self.step * i - self.step * j) ^ 2 < r ^ 2 := by
  unfold linked
  rw [CreateNodes_positionAt, CreateNodes_positionAt]
  by_cases hi : i < self.size
  · by_cases hj : j < self.size
    · rw [if_pos hi, if_pos hj, hex i hi, hex j hj]
      simp only [distSq_on_axis]
      simp [hi, hj, and_assoc]
    · simp [hi, hj]
  · simp [hi]

theorem chain_reach (R : Nat → Nat → Prop) (hR : ∀ i j, R i j → j ≤ i + 1) :
    ∀ (p : List Nat) (s d : Nat), List.Chain' R p → p.head? = some s →
      p.getLast? = some d → d + 1 ≤ s + p.length := by
  intro p
  induction p with
  | nil =>
    intro s d _ hh _
    simp at hh
  | cons a p ih =>
    intro s d hc hh hl
    simp only [List.head?_cons, Option.some.injEq] at hh
    subst hh
    cases p with
    | nil =>
      simp only [List.getLast?_singleton, Option.some.injEq] at hl
      subst hl
      simp
    | cons b q =>
      rw [List.chain'_cons] at hc
      rw [List.getLast?_cons_cons] at hl
      have h1 := ih b d hc.2 rfl hl
      have h2 := hR a b hc.1
      simp only [List.length_cons] at h1 ⊢
      omega

theorem isDistance_iff_sqrt (a b : Vector) (d : ℚ) :
    isDistance a b d ↔ ∃ s, distSq a b = some s ∧ Real.sqrt (s : ℝ) = (d : ℝ) := by
  constructor
  · rintro ⟨h0, h⟩
    refine ⟨d ^ 2, h, ?_⟩
    push_cast
    exact Real.sqrt_sq (by exact_mod_cast h0)
  · rintro ⟨s, hs, h⟩
    have hd : (0 : ℝ) ≤ d := h ▸ Real.sqrt_nonneg _
    have hx : (0 : ℝ) ≤ (s : ℝ) := by
      have : (0 : ℚ) ≤ s := by
        unfold distSq at hs
        split at hs
        · simp only [Option.some.injEq] at hs
          rw [← hs]
          positivity
        · cases hs
      exact_mod_cast this
    refine ⟨by exact_mod_cast hd, ?_⟩
    have h2 : (s : ℝ) = (d : ℝ) ^ 2 := by
      rw [← h, Real.sq_sqrt hx]
    rw [hs]
    congr 1
    exact_mod_cast h2

theorem simple_route_unique (R : Nat → Nat → Prop)
    (hR : ∀ i j, R i j ↔ (i < 5 ∧ j < 5 ∧ (i + 1 = j ∨ j + 1 = i))) (p : List Nat)
    (hh : p.head? = some 0) (hl : p.getLast? = some 4) (hc : List.Chain' R p)
    (hn : p.Nodup) : p = [0, 1, 2, 3, 4] := by
  have hc' : List.Chain' (fun i j => i < 5 ∧ j < 5 ∧ (i + 1 = j ∨ j + 1 = i)) p :=
    List.Chain'.imp (fun i j hij => (hR i j).1 hij) hc
  have hlen := chain_reach _ (fun i j h => by omega) p 0 4 hc' hh hl
  rcases p with _ | ⟨a, _ | ⟨b, _ | ⟨c, _ | ⟨d, _ | ⟨e, _ | ⟨f, q⟩⟩⟩⟩⟩⟩ <;>
    simp only [List.length_cons, List.length_nil] at hlen <;> try omega
  · simp only [List.head?_cons, Option.some.injEq] at hh
    simp only [List.getLast?_cons_cons, List.getLast?_singleton, Option.some.injEq] at hl
    simp only [List.chain'_cons, List.chain'_singleton, and_true] at hc'
    subst hh hl
    obtain ⟨hb, hcc, hd, he⟩ := hc'
    have hb' : b = 1 := by omega
    have hd' : d = 3 := by omega
    have hc2 : c = 2 := by omega
    subst hb' hd' hc2
    rfl
  · exfalso
    simp only [List.head?_cons, Option.some.injEq] at hh
    simp only [List.chain'_cons] at hc'
    simp only [List.nodup_cons, List.mem_cons, not_or] at hn
    subst hh
    obtain ⟨hb, hcc, hd, he, hf, -⟩ := hc'
    obtain ⟨⟨hab, hac, had, hae, haf, -⟩, ⟨hbc, hbd, hbe, hbf, -⟩, ⟨hcd, hce, hcf, -⟩,
      ⟨hde, hdf, -⟩, ⟨hef, -⟩, -⟩ := hn
    omega

/-- C8: for the positions produced by `CreateNodes` with size 5 and step 70 and
every radio range `r` with `step < r <= 2*step`, two nodes are linked exactly
when their indices differ by one (the link graph is the path 0-1-2-3-4);
`[0, 1, 2, 3, 4]` is a route from node 0 to node 4, every route from node 0
to node 4 has at least 4 hops, the only route with 4 hops visits nodes
1, 2, 3 in that order, and it is the only route that visits no node twice. -/
theorem C8_multi_hop_route (self : AodvExample) (hs : self.size = 5) (hst : self.step = 70)
    (r : ℚ) (h1 : self.step < r) (h2 : r ≤ 2 * self.step) :
    (∀ i j, linked (CreateNodes self) r 0 i j = true ↔
      (i < 5 ∧ j < 5 ∧ (i + 1 = j ∨ j + 1 = i))) ∧
    isRoute (CreateNodes self) r 0 0 4 [0, 1, 2, 3, 4] ∧
    (∀ p, isRoute (CreateNodes self) r 0 0 4 p →
      4 ≤ p.length - 1 ∧ (p.length - 1 = 4 → p = [0, 1, 2, 3, 4]) ∧
      (p.Nodup → p = [0, 1, 2, 3, 4])) := by
  rw [hst] at h1 h2
  have hr : 0 < r := by linarith
  have hlink : ∀ i j, linked (CreateNodes self) r 0 i j = true ↔
      (i < 5 ∧ j < 5 ∧ (i + 1 = j ∨ j + 1 = i)) := by
    intro i j
    have hex : ∀ i, i < self.size →
        Double.round (self.step * i) = .finite (self.step * i) := by
      intro k hk
      rw [round_default_step self hst k (by omega), hst]
    rw [linked_CreateNodes self hex, hs, hst]
    constructor
    · rintro ⟨hi, hj, hne, -, hd⟩
      refine ⟨hi, hj, ?_⟩
      interval_cases i <;> interval_cases j <;> first
        | omega
        | (exfalso; norm_num at hd; nlinarith)
    · rintro ⟨hi, hj, hadj⟩
      refine ⟨hi, hj, by omega, hr, ?_⟩
      rcases hadj with rfl | rfl
      · push_cast
        nlinarith
      · push_cast
        nlinarith
  refine ⟨hlink, ?_, ?_⟩
  · refine ⟨rfl, rfl, ?_⟩
    simp only [List.chain'_cons, List.chain'_singleton, and_true, hlink]
    decide
  · intro p ⟨hh, hl, hc⟩
    have hc' : List.Chain' (fun i j => i < 5 ∧ j < 5 ∧ (i + 1 = j ∨ j + 1 = i)) p := by
      refine List.Chain'.imp ?_ hc
      intro i j hij
      exact (hlink i j).1 hij
    have hlen := chain_reach _ (fun i j h => by omega) p 0 4 hc' hh hl
    refine ⟨by omega, ?_, simple_route_unique _ hlink p hh hl hc⟩
    intro h5
    rcases p with _ | ⟨a, _ | ⟨b, _ | ⟨c, _ | ⟨d, _ | ⟨e, _ | ⟨f, q⟩⟩⟩⟩⟩⟩ <;>
      simp only [List.length_cons, List.length_nil] at h5 <;> try omega
    simp only [List.head?_cons, Option.some.injEq] at hh
    simp only [List.getLast?_cons_cons, List.getLast?_singleton, Option.some.injEq] at hl
    simp only [List.chain'_cons, List.chain'_singleton, and_true] at hc'
    subst hh hl
    obtain ⟨hb, hcc, hd, he⟩ := hc'
    have hb' : b = 1 := by omega
    have hd' : d = 3 := by omega
    have hc2 : c = 2 := by omega
    subst hb' hd' hc2
    rfl

/-- C8 at the constructor defaults with radio range 100. -/
theorem C8_multi_hop_route_witness :
    AodvExample.new.size = 5 ∧ AodvExample.new.step = 70 ∧
    AodvExample.new.step < 100 ∧ (100 : ℚ) ≤ 2 * AodvExample.new.step ∧
    (∀ i j, linked (CreateNodes AodvExample.new) 100 0 i j = true ↔
      (i < 5 ∧ j < 5 ∧ (i + 1 = j ∨ j + 1 = i))) ∧
    isRoute (CreateNodes AodvExample.new) 100 0 0 4 [0, 1, 2, 3, 4] ∧
    (∀ p, isRoute (CreateNodes AodvExample.new) 100 0 0 4 p →
      4 ≤ p.length - 1 ∧ (p.length - 1 = 4 → p = [0, 1, 2, 3, 4]) ∧
      (p.Nodup → p = [0, 1, 2, 3, 4])) :=
  ⟨rfl, rfl, by norm_num [AodvExample.new], by norm_num [AodvExample.new],
    C8_multi_hop_route AodvExample.new rfl rfl 100 (by norm_num [AodvExample.new])
      (by norm_num [AodvExample.new])⟩

/-! ## C9: fire times of the registered events -/

theorem mem_dumps_time (b : Bool) (n : Nat) (e : Event)
    (he : e ∈ (if b = true then
        (⟨10, .printRoutingTable 0 "aodv.routes"⟩ : Event) ::
          ([10, 50, 100, 150, 200].map fun (t : ℚ) =>
            (List.range n).map fun (i : Nat) =>
              (⟨t, .printRoutingTable i "aodv.routes"⟩ : Event)).flatten
      else [])) :
    e.time = 10 ∨ e.time = 50 ∨ e.time = 100 ∨ e.time = 150 ∨ e.time = 200 := by
  cases b
  · simp at he
  · simp only [if_true, List.map_cons, List.map_nil, List.flatten_cons, List.flatten_nil,
      List.append_nil, List.mem_cons, List.mem_append, List.mem_map, List.mem_range] at he
    rcases he with rfl | ⟨i, -, rfl⟩ | ⟨i, -, rfl⟩ | ⟨i, -, rfl⟩ | ⟨i, -, rfl⟩ | ⟨i, -, rfl⟩ <;>
      simp

theorem Configure_time_minus_one :
    Configure ⟨none, none, none, some (-1), none⟩ AodvExample.new =
      some (true, ⟨5, 70, -1, true, true⟩) := by
  have h : parseDouble (-1) = some (-1) := by
    simpa using parseDouble_intCast (-1) (by norm_num)
  simp only [Configure, CommandLine.extract, h]
  rfl

/-- C9, the claim as stated fails: `Configure` accepts `--time=-1` (it returns true
with the duration -1 stored), set-up completes, and the simulation stop
event is then registered at time -1, before time 0. -/
theorem C9_counterexample :
    ∃ cfg, Configure ⟨none, none, none, some (-1), none⟩ AodvExample.new = some (true, cfg) ∧
      ∃ net, Run cfg = .ok net ∧
        ∃ e ∈ registeredEvents net, e.action = .stop ∧ e.time = -1 ∧ e.time < 0 := by
  refine ⟨_, Configure_time_minus_one, ?_⟩
  obtain ⟨net, hrun, -, -, -, he⟩ := Run_spec ⟨5, 70, -1, true, true⟩ (by decide)
  refine ⟨net, hrun, ⟨-1, .stop⟩, ?_, rfl, rfl, by norm_num⟩
  unfold registeredEvents
  rw [he]
  simp

/-- C9 as amended: for every configuration with a non-negative duration, whenever
`Run` completes its set-up, every event registered before the simulation
starts (routing-table dumps, waypoints, application start and stop,
simulation stop) has a fire time of at least 0; set-up completes for every
size of at least 5. -/
theorem C9_no_event_in_the_past (self : AodvExample) (ht : 0 ≤ self.totalTime) :
    (∀ net, Run self = .ok net → ∀ e ∈ registeredEvents net, 0 ≤ e.time) ∧
    (5 ≤ self.size → ∃ net, Run self = .ok net) := by
  refine ⟨?_, Run_ok_of_size self⟩
  intro net hrun e hmem
  obtain ⟨-, -, -, ha, he⟩ := Run_ok_spec self net hrun
  unfold registeredEvents at hmem
  rw [he, ha] at hmem
  rcases List.mem_append.1 hmem with h1 | h1
  · rcases List.mem_append.1 h1 with h2 | h2
    · rcases mem_dumps_time _ _ e h2 with h | h | h | h | h <;> rw [h] <;> norm_num
    · simp only [List.mem_cons, List.mem_singleton, List.not_mem_nil, or_false] at h2
      rcases h2 with rfl | rfl | rfl | rfl
      · norm_num
      · norm_num
      · norm_num
      · exact ht
  · simp [List.enum, List.enumFrom, Application.events] at h1
    rcases h1 with rfl | rfl | rfl | rfl <;> norm_num

/-- C9 as amended, at the constructor defaults: set-up completes and no registered
event lies before time 0. -/
theorem C9_no_event_in_the_past_witness :
    0 ≤ AodvExample.new.totalTime ∧
    ∃ net, Run AodvExample.new = .ok net ∧ ∀ e ∈ registeredEvents net, 0 ≤ e.time :=
  ⟨by norm_num [AodvExample.new],
    ((C9_no_event_in_the_past AodvExample.new (by norm_num [AodvExample.new])).2
      (by decide)).elim fun net hrun =>
      ⟨net, hrun,
        (C9_no_event_in_the_past AodvExample.new (by norm_num [AodvExample.new])).1 net hrun⟩⟩

/-! ## C10: node indices -/

/-- C10, the claim as stated fails: `Configure` accepts `--size=3` (it returns true
with the size 3 stored), and `Run` then asks for node 4 of a container of 3
nodes; index 4 is not below the size and the lookup fails. -/
theorem C10_counterexample :
    Configure ⟨none, none, some 3, none, none⟩ AodvExample.new =
      some (true, { AodvExample.new with size := 3 }) ∧
    ({ AodvExample.new with size := 3 } : AodvExample).size = 3 ∧
    Run { AodvExample.new with size := 3 } = .error (.nodeIndex 4 3) ∧
    ¬ (4 < ({ AodvExample.new with size := 3 } : AodvExample).size) := by
  refine ⟨rfl, rfl, ?_, by decide⟩
  rfl

/-- C10 as amended: `CreateNodes` makes a container of exactly `size` nodes and a
lookup succeeds exactly when its index is below `size`. The indices the
script uses are 0 and 4. For every configuration with size at least 5 (as
with the default size 5) each of them is below `size`, the lookups of node 0,
of node 4 and of the address of interface 4 succeed, and `Run` completes
its set-up; for a size below 5 `Run` fails on a lookup. -/
theorem C10_indices_in_range (self : AodvExample) :
    (CreateNodes self).nodes.length = self.size ∧
    (∀ i, (∃ n, NodeContainer.Get (CreateNodes self).nodes i = .ok n) ↔ i < self.size) ∧
    (5 ≤ self.size →
      0 < self.size ∧ 4 < self.size ∧
      (∃ n, NodeContainer.Get (CreateNodes self).nodes 0 = .ok n) ∧
      (∃ n, NodeContainer.Get (CreateNodes self).nodes 4 = .ok n) ∧
      (∃ net1, InstallInternetStack self (CreateDevices self (CreateNodes self)) = .ok net1 ∧
        ∃ a, Ipv4InterfaceContainer.GetAddress net1.interfaces 4 = .ok a) ∧
      ∃ net, Run self = .ok net) ∧
    (self.size < 5 → ∃ e, Run self = .error e) := by
  refine ⟨CreateNodes_length self, ?_, ?_, Run_error_of_size_lt self⟩
  · intro i
    constructor
    · rintro ⟨n, hn⟩
      by_contra hi
      rw [Get_CreateNodes_error self i (by omega)] at hn
      cases hn
    · intro hi
      exact ⟨_, Get_CreateNodes self i hi⟩
  · intro h
    refine ⟨by omega, by omega, ⟨_, Get_CreateNodes self 0 (by omega)⟩,
      ⟨_, Get_CreateNodes self 4 (by omega)⟩, ?_, ?_⟩
    · obtain ⟨net1, h1, -, hi, -, -⟩ := InstallInternetStack_spec self (fun _ => by omega)
      refine ⟨net1, h1, baseAddress + 5, ?_⟩
      unfold Ipv4InterfaceContainer.GetAddress
      rw [List.get?_eq_getElem?, hi]
      simp [List.getElem?_range, show 4 < self.size by omega]
    · obtain ⟨net, hrun, -⟩ := Run_spec self h
      exact ⟨net, hrun⟩

/-- C10 as amended, at the constructor defaults. -/
theorem C10_indices_in_range_witness :
    5 ≤ AodvExample.new.size ∧
    0 < AodvExample.new.size ∧ 4 < AodvExample.new.size ∧
    (∃ n, NodeContainer.Get (CreateNodes AodvExample.new).nodes 0 = .ok n) ∧
    (∃ n, NodeContainer.Get (CreateNodes AodvExample.new).nodes 4 = .ok n) ∧
    (∃ net1, InstallInternetStack AodvExample.new
        (CreateDevices AodvExample.new (CreateNodes AodvExample.new)) = .ok net1 ∧
      ∃ a, Ipv4InterfaceContainer.GetAddress net1.interfaces 4 = .ok a) ∧
    ∃ net, Run AodvExample.new = .ok net :=
  ⟨by decide, (C10_indices_in_range AodvExample.new).2.2.1 (by decide)⟩

end Aodv
